import Mathlib

/-!
Verification development for the blockchain-intelligence identification core:
address clustering, entity attribution, entity-store update proposals, risk
scoring and pattern detection.

Modelling conventions (shallow embedding of the JavaScript source):
* JavaScript numbers are modelled as rationals.
* A JavaScript object used as a string-keyed map is modelled as an
  association list in insertion order; setting a key that is already present
  replaces its value in place, setting a fresh key appends.
* A JavaScript Set is modelled as a duplicate-free list in insertion order.
* Async functions that can throw are modelled in the Except String monad,
  with the thrown error message as the String.
* Fields that may be absent (undefined) are modelled with Option.
-/

namespace BlockchainIntel

/-- JS Set.add: append the element unless it is already present. -/
def setAdd (s : List String) (a : String) : List String :=
  if a ∈ s then s else s ++ [a]

/-- JS "new Set(list)": deduplicate keeping first occurrences, in order. -/
def setOfList (l : List String) : List String :=
  l.foldl setAdd []

/-- Add every element of a list to a set, in order (Set.add in a forEach). -/
def setUnion (s : List String) (l : List String) : List String :=
  l.foldl setAdd s

/-- JS object property write: replace in place if the key exists, else append. -/
def objSet {α : Type} (m : List (String × α)) (k : String) (v : α) :
    List (String × α) :=
  if m.any (fun p => p.1 = k) then
    m.map (fun p => if p.1 = k then (k, v) else p)
  else m ++ [(k, v)]

theorem mem_setAdd {s : List String} {a x : String} :
    x ∈ setAdd s a ↔ x ∈ s ∨ x = a := by
  unfold setAdd
  by_cases h : a ∈ s
  · rw [if_pos h]
    constructor
    · exact fun hx => Or.inl hx
    · rintro (hx | rfl) <;> assumption
  · rw [if_neg h]
    simp

theorem mem_setUnion {s : List String} {l : List String} {x : String} :
    x ∈ setUnion s l ↔ x ∈ s ∨ x ∈ l := by
  induction l generalizing s with
  | nil => simp [setUnion]
  | cons b t ih =>
    show x ∈ setUnion (setAdd s b) t ↔ _
    rw [ih, mem_setAdd]
    simp only [List.mem_cons]
    tauto

theorem mem_setOfList {l : List String} {x : String} :
    x ∈ setOfList l ↔ x ∈ l := by
  have : setOfList l = setUnion [] l := rfl
  rw [this, mem_setUnion]
  simp

/-! Decimal rendering of natural numbers. The source builds cluster ids with
template strings; the embedding uses Nat.repr, and we prove it injective so
that freshly generated ids are provably new. -/

/-- Specification of decimal digit rendering, by well-founded recursion. -/
def decDigits (n : Nat) : List Char :=
  if h : n < 10 then [Nat.digitChar n]
  else decDigits (n / 10) ++ [Nat.digitChar (n % 10)]
decreasing_by
  exact Nat.div_lt_self (by omega) (by omega)

theorem decDigits_lt {n : Nat} (h : n < 10) : decDigits n = [Nat.digitChar n] := by
  rw [decDigits, dif_pos h]

theorem decDigits_ge {n : Nat} (h : ¬ n < 10) :
    decDigits n = decDigits (n / 10) ++ [Nat.digitChar (n % 10)] := by
  conv_lhs => rw [decDigits]
  rw [dif_neg h]

theorem decDigits_ne_nil (n : Nat) : decDigits n ≠ [] := by
  by_cases h : n < 10
  · rw [decDigits_lt h]
    simp
  · rw [decDigits_ge h]
    simp

theorem toDigitsCore_eq (fuel n : Nat) (ds : List Char) (h : n < fuel) :
    Nat.toDigitsCore 10 fuel n ds = decDigits n ++ ds := by
  induction fuel generalizing n ds with
  | zero => omega
  | succ fuel ih =>
    rw [Nat.toDigitsCore]
    by_cases h10 : n < 10
    · have hdiv : n / 10 = 0 := Nat.div_eq_of_lt h10
      rw [decDigits_lt h10]
      simp [hdiv, Nat.mod_eq_of_lt h10]
    · have hdiv : n / 10 ≠ 0 := by
        intro hc
        rw [Nat.div_eq_zero_iff (by omega)] at hc
        omega
      have hlt : n / 10 < fuel := by
        have h1 : n / 10 < n := Nat.div_lt_self (by omega) (by omega)
        omega
      rw [if_neg hdiv, ih _ _ hlt, decDigits_ge h10]
      simp

theorem repr_eq_decDigits (n : Nat) :
    Nat.repr n = (decDigits n).asString := by
  unfold Nat.repr Nat.toDigits
  rw [toDigitsCore_eq (n + 1) n [] (Nat.lt_succ_self n)]
  simp

theorem digitChar_inj_lt :
    ∀ m < 10, ∀ n < 10, Nat.digitChar m = Nat.digitChar n → m = n := by
  decide

theorem concat_inj {α : Type} {l₁ l₂ : List α} {a b : α}
    (h : l₁ ++ [a] = l₂ ++ [b]) : l₁ = l₂ ∧ a = b := by
  have hr := congrArg List.reverse h
  simp at hr
  obtain ⟨h1, h2⟩ := hr
  exact ⟨by simpa using congrArg List.reverse h2, h1⟩

theorem decDigits_length_ge {n : Nat} (h : ¬ n < 10) :
    2 ≤ (decDigits n).length := by
  rw [decDigits_ge h, List.length_append]
  have := decDigits_ne_nil (n / 10)
  have : 1 ≤ (decDigits (n / 10)).length := by
    cases hc : decDigits (n / 10)
    · exact absurd hc this
    · simp
  simp
  omega

theorem decDigits_inj : ∀ m n : Nat, decDigits m = decDigits n → m = n := by
  intro m
  induction m using Nat.strong_induction_on with
  | _ m ih =>
    intro n h
    by_cases hm : m < 10 <;> by_cases hn : n < 10
    · rw [decDigits_lt hm, decDigits_lt hn] at h
      exact digitChar_inj_lt m hm n hn (by simpa using h)
    · exfalso
      have hlen := congrArg List.length h
      rw [decDigits_lt hm] at hlen
      have := decDigits_length_ge hn
      simp at hlen
      omega
    · exfalso
      have hlen := congrArg List.length h
      rw [decDigits_lt hn] at hlen
      have := decDigits_length_ge hm
      simp at hlen
      omega
    · rw [decDigits_ge hm, decDigits_ge hn] at h
      obtain ⟨h1, h2⟩ := concat_inj h
      have hdiv : m / 10 = n / 10 :=
        ih (m / 10) (Nat.div_lt_self (by omega) (by omega)) _ h1
      have hmod : m % 10 = n % 10 :=
        digitChar_inj_lt _ (Nat.mod_lt _ (by omega)) _ (Nat.mod_lt _ (by omega)) h2
      omega

theorem natRepr_inj {m n : Nat} (h : Nat.repr m = Nat.repr n) : m = n := by
  rw [repr_eq_decDigits, repr_eq_decDigits] at h
  exact decDigits_inj m n (by
    have := congrArg String.data h
    simpa [List.asString] using this)

/-- Cluster ids generated by the common-input pass: cluster_1, cluster_2, ... -/
def mkId (n : Nat) : String := "cluster_" ++ Nat.repr n

theorem mkId_inj {m n : Nat} (h : mkId m = mkId n) : m = n := by
  apply natRepr_inj
  have hd := congrArg String.data h
  simp only [mkId, String.data_append] at hd
  exact String.ext (List.append_cancel_left hd)

/-! Transaction model. A transaction is either a simple from/to record or a
multi-input/output (UTXO-style) record; the inputs and outputs lists are
modelled by the address strings they carry. Timestamps are epoch
milliseconds. -/

structure Transaction where
  hash : String
  timestamp : Nat
  sender : String
  receiver : String
  value : ℚ
  inputs : Option (List String)
  outputs : Option (List String)
deriving Repr, DecidableEq

/-- getInputAddresses: input list addresses when present, else the single
sender address (the source's transaction.from). -/
def getInputAddresses (tx : Transaction) : List String :=
  match tx.inputs with
  | some l => l
  | none => [tx.sender]

/-- getOutputAddresses: output list addresses when present, else the single
receiver address (the source's transaction.to). -/
def getOutputAddresses (tx : Transaction) : List String :=
  match tx.outputs with
  | some l => l
  | none => [tx.receiver]

/-! Common-input-ownership clustering. Clusters are a string-keyed object of
address Sets; the state also carries the running cluster id counter. -/

structure CCState where
  clusters : List (String × List String)
  counter : Nat
deriving Repr

/-- Ids of the existing clusters containing any of the given input addresses,
collected address-major into a Set exactly as the source's nested loops do. -/
def existingClustersFor (clusters : List (String × List String))
    (inputAddresses : List String) : List String :=
  inputAddresses.foldl
    (fun acc a =>
      clusters.foldl
        (fun acc2 c =>
          if a ∈ c.2 then (if c.1 ∈ acc2 then acc2 else acc2 ++ [c.1]) else acc2)
        acc)
    []

/-- Add all given addresses to the cluster with the given id. -/
def addToClusterId (clusters : List (String × List String)) (cid : String)
    (addrs : List String) : List (String × List String) :=
  clusters.map (fun c => if c.1 = cid then (c.1, setUnion c.2 addrs) else c)

/-- Members of the cluster with the given id (empty when absent). -/
def getMembers (clusters : List (String × List String)) (cid : String) :
    List String :=
  ((clusters.find? (fun c => c.1 = cid)).map (fun c => c.2)).getD []

/-- Delete the cluster entry with the given id. -/
def removeCluster (clusters : List (String × List String)) (cid : String) :
    List (String × List String) :=
  clusters.filter (fun c => ¬ c.1 = cid)

/-- Merge the cluster src into target: add all of src's members to target,
then delete src. -/
def mergeOne (clusters : List (String × List String)) (target src : String) :
    List (String × List String) :=
  removeCluster (addToClusterId clusters target (getMembers clusters src)) src

/-- One transaction of the common-input pass: skip single-input transactions,
then create, extend or merge according to how many existing clusters the
input addresses touch. -/
def ccStep (st : CCState) (tx : Transaction) : CCState :=
  let inputAddresses := getInputAddresses tx
  if inputAddresses.length ≤ 1 then st
  else
    match existingClustersFor st.clusters inputAddresses with
    | [] =>
      { clusters := st.clusters ++ [(mkId st.counter, setOfList inputAddresses)],
        counter := st.counter + 1 }
    | [cid] =>
      { st with clusters := addToClusterId st.clusters cid inputAddresses }
    | target :: rest =>
      { st with
        clusters := rest.foldl (fun cs src => mergeOne cs target src)
          (addToClusterId st.clusters target inputAddresses) }

/-- commonInputClustering: fold the transactions over an empty cluster map
with the id counter starting at 1; the final Set-to-Array conversion is the
identity in this model. The source wraps the body in a try/catch, but no
statement in it can throw. -/
def commonInputClustering (transactions : List Transaction) :
    List (String × List String) :=
  (transactions.foldl ccStep { clusters := [], counter := 1 }).clusters

example : commonInputClustering
    [{ hash := "h1", timestamp := 0, sender := "", receiver := "c", value := 0,
       inputs := some ["a", "b"], outputs := none },
     { hash := "h2", timestamp := 0, sender := "", receiver := "e", value := 0,
       inputs := some ["b", "d"], outputs := none }] =
    [("cluster_1", ["a", "b", "d"])] := by decide

example : commonInputClustering
    [{ hash := "h1", timestamp := 0, sender := "", receiver := "", value := 0,
       inputs := some ["a", "b"], outputs := none },
     { hash := "h2", timestamp := 0, sender := "", receiver := "", value := 0,
       inputs := some ["c", "d"], outputs := none },
     { hash := "h3", timestamp := 0, sender := "", receiver := "", value := 0,
       inputs := some ["a", "c"], outputs := none }] =
    [("cluster_1", ["a", "b", "c", "d"])] := by decide

/-! Invariants of the common-input pass. -/

/-- The key list of a cluster map. -/
def ids (cs : List (String × List String)) : List String :=
  cs.map Prod.fst

/-- An address is clustered when some cluster contains it. -/
def memAddr (cs : List (String × List String)) (a : String) : Prop :=
  ∃ c ∈ cs, a ∈ c.2

/-- Clusters with different ids have no common address. -/
def DisjointClusters (cs : List (String × List String)) : Prop :=
  ∀ c ∈ cs, ∀ d ∈ cs, c.1 ≠ d.1 → ∀ a, a ∈ c.2 → a ∉ d.2

theorem inner_fold_mem (cs : List (String × List String)) (a : String)
    (acc : List String) (x : String) :
    x ∈ cs.foldl
        (fun acc2 c =>
          if a ∈ c.2 then (if c.1 ∈ acc2 then acc2 else acc2 ++ [c.1]) else acc2)
        acc ↔
      x ∈ acc ∨ ∃ c ∈ cs, c.1 = x ∧ a ∈ c.2 := by
  induction cs generalizing acc with
  | nil => simp
  | cons c t ih =>
    simp only [List.foldl_cons, ih, List.mem_cons]
    constructor
    · rintro (hx | hex)
      · by_cases hac : a ∈ c.2
        · rw [if_pos hac] at hx
          by_cases hcx : c.1 ∈ acc
          · rw [if_pos hcx] at hx
            exact Or.inl hx
          · rw [if_neg hcx] at hx
            rcases List.mem_append.1 hx with hx | hx
            · exact Or.inl hx
            · simp at hx
              exact Or.inr ⟨c, Or.inl rfl, hx.symm, hac⟩
        · rw [if_neg hac] at hx
          exact Or.inl hx
      · obtain ⟨d, hd, hdx, hda⟩ := hex
        exact Or.inr ⟨d, Or.inr hd, hdx, hda⟩
    · rintro (hx | hex)
      · left
        by_cases hac : a ∈ c.2
        · rw [if_pos hac]
          by_cases hcx : c.1 ∈ acc
          · rw [if_pos hcx]; exact hx
          · rw [if_neg hcx]; exact List.mem_append.2 (Or.inl hx)
        · rw [if_neg hac]; exact hx
      · obtain ⟨d, hd, hdx, hda⟩ := hex
        rcases hd with rfl | hd
        · left
          rw [if_pos hda]
          by_cases hcx : d.1 ∈ acc
          · rw [if_pos hcx]
            exact hdx ▸ hcx
          · rw [if_neg hcx]
            exact List.mem_append.2 (Or.inr (by simp [hdx]))
        · exact Or.inr ⟨d, hd, hdx, hda⟩

theorem inner_fold_nodup (cs : List (String × List String)) (a : String)
    (acc : List String) (hacc : acc.Nodup) :
    (cs.foldl
        (fun acc2 c =>
          if a ∈ c.2 then (if c.1 ∈ acc2 then acc2 else acc2 ++ [c.1]) else acc2)
        acc).Nodup := by
  induction cs generalizing acc with
  | nil => exact hacc
  | cons c t ih =>
    simp only [List.foldl_cons]
    apply ih
    by_cases hac : a ∈ c.2
    · rw [if_pos hac]
      by_cases hcx : c.1 ∈ acc
      · rw [if_pos hcx]; exact hacc
      · rw [if_neg hcx, List.nodup_append]
        refine ⟨hacc, List.nodup_singleton _, ?_⟩
        intro y hy hy2
        simp at hy2
        exact hcx (hy2 ▸ hy)
    · rw [if_neg hac]; exact hacc

theorem mem_existingClustersFor {cs : List (String × List String)}
    {ia : List String} {x : String} :
    x ∈ existingClustersFor cs ia ↔
      ∃ a ∈ ia, ∃ c ∈ cs, c.1 = x ∧ a ∈ c.2 := by
  unfold existingClustersFor
  have main : ∀ (l : List String) (acc : List String),
      x ∈ l.foldl
          (fun acc a =>
            cs.foldl
              (fun acc2 c =>
                if a ∈ c.2 then (if c.1 ∈ acc2 then acc2 else acc2 ++ [c.1])
                else acc2)
              acc)
          acc ↔
        x ∈ acc ∨ ∃ a ∈ l, ∃ c ∈ cs, c.1 = x ∧ a ∈ c.2 := by
    intro l
    induction l with
    | nil => simp
    | cons b t ih =>
      intro acc
      simp only [List.foldl_cons, ih, inner_fold_mem, List.mem_cons]
      constructor
      · rintro ((hx | hex) | hex)
        · exact Or.inl hx
        · obtain ⟨c, hc, hcx, hca⟩ := hex
          exact Or.inr ⟨b, Or.inl rfl, c, hc, hcx, hca⟩
        · obtain ⟨a, ha, hrest⟩ := hex
          exact Or.inr ⟨a, Or.inr ha, hrest⟩
      · rintro (hx | hex)
        · exact Or.inl (Or.inl hx)
        · obtain ⟨a, ha, hrest⟩ := hex
          rcases ha with rfl | ha
          · exact Or.inl (Or.inr hrest)
          · exact Or.inr ⟨a, ha, hrest⟩
  rw [main ia []]
  simp

theorem nodup_existingClustersFor (cs : List (String × List String))
    (ia : List String) : (existingClustersFor cs ia).Nodup := by
  unfold existingClustersFor
  have main : ∀ (l : List String) (acc : List String), acc.Nodup →
      (l.foldl
          (fun acc a =>
            cs.foldl
              (fun acc2 c =>
                if a ∈ c.2 then (if c.1 ∈ acc2 then acc2 else acc2 ++ [c.1])
                else acc2)
              acc)
          acc).Nodup := by
    intro l
    induction l with
    | nil => exact fun acc h => h
    | cons b t ih =>
      intro acc hacc
      exact ih _ (inner_fold_nodup cs b acc hacc)
  exact main ia [] List.nodup_nil

theorem existingClustersFor_sub {cs : List (String × List String)}
    {ia : List String} {x : String} (h : x ∈ existingClustersFor cs ia) :
    x ∈ ids cs := by
  rw [mem_existingClustersFor] at h
  obtain ⟨a, _, c, hc, hcx, _⟩ := h
  exact hcx ▸ List.mem_map_of_mem Prod.fst hc

theorem ids_addToClusterId (cs : List (String × List String)) (cid : String)
    (addrs : List String) : ids (addToClusterId cs cid addrs) = ids cs := by
  unfold ids addToClusterId
  rw [List.map_map]
  apply List.map_congr_left
  intro c _
  by_cases h : c.1 = cid
  · simp [h]
  · simp [h]

theorem ids_removeCluster (cs : List (String × List String)) (cid : String) :
    ids (removeCluster cs cid) = (ids cs).filter (fun x => ¬ x = cid) := by
  unfold ids removeCluster
  induction cs with
  | nil => rfl
  | cons c t ih =>
    rw [List.filter_cons, List.map_cons, List.filter_cons]
    by_cases h : c.1 = cid
    · rw [if_neg (by simp [h]), if_neg (by simp [h])]
      exact ih
    · rw [if_pos (by simp [h]), if_pos (by simp [h]), List.map_cons, ih]

theorem find?_of_nodup {cs : List (String × List String)}
    (hnd : (ids cs).Nodup) {c : String × List String} (hc : c ∈ cs) :
    cs.find? (fun d => d.1 = c.1) = some c := by
  induction cs with
  | nil => simp at hc
  | cons d t ih =>
    rcases List.mem_cons.1 hc with rfl | hc
    · simp [List.find?_cons]
    · have hd : ¬ (d.1 = c.1) := by
        intro he
        unfold ids at hnd
        rw [List.map_cons, List.nodup_cons] at hnd
        exact hnd.1 (he ▸ List.mem_map_of_mem Prod.fst hc)
      rw [List.find?_cons_of_neg _ (by simp [hd])]
      apply ih _ hc
      unfold ids at hnd ⊢
      rw [List.map_cons, List.nodup_cons] at hnd
      exact hnd.2

theorem subset_setUnion_left (s l : List String) : s ⊆ setUnion s l := by
  intro a ha
  rw [mem_setUnion]
  exact Or.inl ha

theorem subset_setUnion_right (s l : List String) : l ⊆ setUnion s l := by
  intro a ha
  rw [mem_setUnion]
  exact Or.inr ha

theorem mem_addToClusterId_iff {cs : List (String × List String)} {cid : String}
    {addrs : List String} {c' : String × List String} :
    c' ∈ addToClusterId cs cid addrs ↔
      ∃ c ∈ cs, c' = (if c.1 = cid then (c.1, setUnion c.2 addrs) else c) := by
  unfold addToClusterId
  rw [List.mem_map]
  constructor
  · rintro ⟨c, hc, rfl⟩
    exact ⟨c, hc, rfl⟩
  · rintro ⟨c, hc, rfl⟩
    exact ⟨c, hc, rfl⟩

theorem mem_removeCluster_iff {cs : List (String × List String)} {cid : String}
    {c : String × List String} :
    c ∈ removeCluster cs cid ↔ c ∈ cs ∧ ¬ c.1 = cid := by
  unfold removeCluster
  rw [List.mem_filter]
  simp

theorem eq_of_mem_nodup_ids {cs : List (String × List String)}
    (h : (ids cs).Nodup) {c d : String × List String} (hc : c ∈ cs)
    (hd : d ∈ cs) (he : c.1 = d.1) : c = d := by
  induction cs with
  | nil => simp at hc
  | cons e t ih =>
    unfold ids at h
    rw [List.map_cons, List.nodup_cons] at h
    rcases List.mem_cons.1 hc with hc1 | hc1
    · rcases List.mem_cons.1 hd with hd1 | hd1
      · rw [hc1, hd1]
      · exfalso
        apply h.1
        have hce : c.1 = e.1 := by rw [hc1]
        rw [← hce, he]
        exact List.mem_map_of_mem Prod.fst hd1
    · rcases List.mem_cons.1 hd with hd1 | hd1
      · exfalso
        apply h.1
        have hde : d.1 = e.1 := by rw [hd1]
        rw [← hde, ← he]
        exact List.mem_map_of_mem Prod.fst hc1
      · exact ih h.2 hc1 hd1

theorem mem_ids_iff {cs : List (String × List String)} {x : String} :
    x ∈ ids cs ↔ ∃ c ∈ cs, c.1 = x := by
  unfold ids
  rw [List.mem_map]

theorem getMembers_eq {cs : List (String × List String)}
    (hnd : (ids cs).Nodup) {c : String × List String} (hc : c ∈ cs) :
    getMembers cs c.1 = c.2 := by
  unfold getMembers
  rw [find?_of_nodup hnd hc]
  rfl

/-- Invariant carried through the cluster-merging fold of one transaction.
base is the cluster map before the transaction, ia its input addresses,
target the surviving cluster, pending the clusters still to be merged. -/
structure MergeInv (base : List (String × List String)) (ia : List String)
    (target : String) (cs : List (String × List String))
    (pending : List String) : Prop where
  nodup : (ids cs).Nodup
  idsub : ∀ x ∈ ids cs, x ∈ ids base
  tgt : ∃ t ∈ cs, t.1 = target ∧ ia ⊆ t.2
  pnodup : pending.Nodup
  pmem : ∀ s ∈ pending, s ∈ ids cs ∧ s ≠ target
  disj : ∀ c ∈ cs, ∀ d ∈ cs, c.1 ≠ d.1 →
      (c.1 = target → d.1 ∉ pending) → (d.1 = target → c.1 ∉ pending) →
      ∀ a, a ∈ c.2 → a ∉ d.2
  memiff : ∀ a, memAddr cs a ↔ (memAddr base a ∨ a ∈ ia)
  mono : ∀ c ∈ base, ∃ c' ∈ cs, c.2 ⊆ c'.2

theorem MergeInv.step {base : List (String × List String)} {ia : List String}
    {target : String} {cs : List (String × List String)} {src : String}
    {pending : List String} (h : MergeInv base ia target cs (src :: pending)) :
    MergeInv base ia target (mergeOne cs target src) pending := by
  obtain ⟨hsrc_ids, hsrc_ne⟩ := h.pmem src (List.mem_cons_self src pending)
  obtain ⟨esrc, hesrc, hesrc1⟩ := mem_ids_iff.1 hsrc_ids
  have hsrc_not_pending : src ∉ pending := by
    have := h.pnodup
    rw [List.nodup_cons] at this
    exact this.1
  have hget : getMembers cs src = esrc.2 := hesrc1 ▸ getMembers_eq h.nodup hesrc
  obtain ⟨t, ht, ht1, htia⟩ := h.tgt
  -- characterize the entries of mergeOne cs target src
  have hform : ∀ c' ∈ mergeOne cs target src,
      ∃ c ∈ cs, ¬ c.1 = src ∧
        c' = (if c.1 = target then (c.1, setUnion c.2 esrc.2) else c) := by
    intro c' hc'
    unfold mergeOne at hc'
    rw [hget, mem_removeCluster_iff] at hc'
    obtain ⟨hc'1, hc'2⟩ := hc'
    rw [mem_addToClusterId_iff] at hc'1
    obtain ⟨c, hc, rfl⟩ := hc'1
    refine ⟨c, hc, ?_, rfl⟩
    intro hceq
    by_cases hct : c.1 = target
    · rw [if_pos hct] at hc'2
      exact hc'2 (hceq ▸ hct ▸ rfl)
    · rw [if_neg hct] at hc'2
      exact hc'2 hceq
  have hform' : ∀ c ∈ cs, ¬ c.1 = src →
      (if c.1 = target then (c.1, setUnion c.2 esrc.2) else c) ∈
        mergeOne cs target src := by
    intro c hc hcs
    unfold mergeOne
    rw [hget, mem_removeCluster_iff]
    constructor
    · rw [mem_addToClusterId_iff]
      exact ⟨c, hc, rfl⟩
    · by_cases hct : c.1 = target
      · rw [if_pos hct]
        exact fun hx => hcs hx
      · rw [if_neg hct]
        exact hcs
  have hids : ids (mergeOne cs target src) =
      (ids cs).filter (fun x => ¬ x = src) := by
    unfold mergeOne
    rw [ids_removeCluster, ids_addToClusterId]
  refine ⟨?_, ?_, ?_, ?_, ?_, ?_, ?_, ?_⟩
  · rw [hids]
    exact h.nodup.filter _
  · intro x hx
    rw [hids] at hx
    exact h.idsub x (List.mem_of_mem_filter hx)
  · refine ⟨(if t.1 = target then (t.1, setUnion t.2 esrc.2) else t), ?_, ?_⟩
    · exact hform' t ht (by rw [ht1]; exact fun hx => hsrc_ne hx.symm)
    · rw [if_pos ht1]
      exact ⟨ht1, fun a ha => subset_setUnion_left _ _ (htia ha)⟩
  · have := h.pnodup
    rw [List.nodup_cons] at this
    exact this.2
  · intro s hs
    obtain ⟨hs1, hs2⟩ := h.pmem s (List.mem_cons_of_mem src hs)
    constructor
    · rw [hids, List.mem_filter]
      refine ⟨hs1, by simp; intro hx; exact hsrc_not_pending (hx ▸ hs)⟩
    · exact hs2
  · intro c' hc' d' hd' hne hex1 hex2 a ha
    obtain ⟨c, hc, hcsrc, rfl⟩ := hform c' hc'
    obtain ⟨d, hd, hdsrc, rfl⟩ := hform d' hd'
    have hfst1 : (if c.1 = target then (c.1, setUnion c.2 esrc.2) else c).1 = c.1 := by
      by_cases hct : c.1 = target
      · rw [if_pos hct]
      · rw [if_neg hct]
    have hfst2 : (if d.1 = target then (d.1, setUnion d.2 esrc.2) else d).1 = d.1 := by
      by_cases hct : d.1 = target
      · rw [if_pos hct]
      · rw [if_neg hct]
    rw [hfst1, hfst2] at hne hex1 hex2
    -- decompose membership in the possibly enlarged clusters
    have hc2 : ∀ x, x ∈ (if c.1 = target then (c.1, setUnion c.2 esrc.2) else c).2 →
        x ∈ c.2 ∨ (c.1 = target ∧ x ∈ esrc.2) := by
      intro x hx
      by_cases hct : c.1 = target
      · rw [if_pos hct] at hx
        rcases mem_setUnion.1 hx with hx | hx
        · exact Or.inl hx
        · exact Or.inr ⟨hct, hx⟩
      · rw [if_neg hct] at hx
        exact Or.inl hx
    have hd2 : ∀ x, x ∈ (if d.1 = target then (d.1, setUnion d.2 esrc.2) else d).2 →
        x ∈ d.2 ∨ (d.1 = target ∧ x ∈ esrc.2) := by
      intro x hx
      by_cases hct : d.1 = target
      · rw [if_pos hct] at hx
        rcases mem_setUnion.1 hx with hx | hx
        · exact Or.inl hx
        · exact Or.inr ⟨hct, hx⟩
      · rw [if_neg hct] at hx
        exact Or.inl hx
    intro hb
    rcases hc2 a ha with hac | ⟨hct, hac⟩ <;> rcases hd2 a hb with had | ⟨hdt, had⟩
    · refine h.disj c hc d hd hne ?_ ?_ a hac had
      · intro hx hp
        rcases List.mem_cons.1 hp with hps | hp
        · exact hdsrc hps
        · exact hex1 hx hp
      · intro hx hp
        rcases List.mem_cons.1 hp with hps | hp
        · exact hcsrc hps
        · exact hex2 hx hp
    · -- a is in c and in the merged source, and d is the target
      have hcnott : c.1 ≠ target := fun hx => hne (hx.trans hdt.symm)
      exact h.disj c hc esrc hesrc (fun hx => hcsrc (hx.trans hesrc1))
        (fun hx => absurd hx hcnott)
        (fun hx => absurd (hesrc1.symm.trans hx) hsrc_ne)
        a hac had
    · have hdnott : d.1 ≠ target := fun hx => hne (hct.trans hx.symm)
      exact h.disj esrc hesrc d hd (fun hx => hdsrc (hesrc1.symm.trans hx).symm)
        (fun hx => absurd (hesrc1.symm.trans hx) hsrc_ne)
        (fun hx => absurd hx hdnott)
        a hac had
    · exact hne (hct.trans hdt.symm)
  · intro a
    rw [← h.memiff a]
    constructor
    · rintro ⟨c', hc', ha⟩
      obtain ⟨c, hc, hcsrc, rfl⟩ := hform c' hc'
      by_cases hct : c.1 = target
      · rw [if_pos hct] at ha
        rcases mem_setUnion.1 ha with ha | ha
        · exact ⟨c, hc, ha⟩
        · exact ⟨esrc, hesrc, ha⟩
      · rw [if_neg hct] at ha
        exact ⟨c, hc, ha⟩
    · rintro ⟨c, hc, ha⟩
      by_cases hcs : c.1 = src
      · have hce : c = esrc :=
          eq_of_mem_nodup_ids h.nodup hc hesrc (hcs.trans hesrc1.symm)
        refine ⟨(if t.1 = target then (t.1, setUnion t.2 esrc.2) else t),
          hform' t ht (by rw [ht1]; exact fun hx => hsrc_ne hx.symm), ?_⟩
        rw [if_pos ht1]
        exact subset_setUnion_right _ _ (hce ▸ ha)
      · refine ⟨(if c.1 = target then (c.1, setUnion c.2 esrc.2) else c),
          hform' c hc hcs, ?_⟩
        by_cases hct : c.1 = target
        · rw [if_pos hct]
          exact subset_setUnion_left _ _ ha
        · rw [if_neg hct]
          exact ha
  · intro c hc
    obtain ⟨c', hc', hsub⟩ := h.mono c hc
    by_cases hcs : c'.1 = src
    · have hce : c' = esrc :=
        eq_of_mem_nodup_ids h.nodup hc' hesrc (hcs.trans hesrc1.symm)
      refine ⟨(if t.1 = target then (t.1, setUnion t.2 esrc.2) else t),
        hform' t ht (by rw [ht1]; exact fun hx => hsrc_ne hx.symm), ?_⟩
      rw [if_pos ht1]
      exact fun a ha => subset_setUnion_right _ _ (hce ▸ hsub ha)
    · refine ⟨(if c'.1 = target then (c'.1, setUnion c'.2 esrc.2) else c'),
        hform' c' hc' hcs, ?_⟩
      by_cases hct : c'.1 = target
      · rw [if_pos hct]
        exact fun a ha => subset_setUnion_left _ _ (hsub ha)
      · rw [if_neg hct]
        exact hsub

theorem MergeInv.fold {base : List (String × List String)} {ia : List String}
    {target : String} :
    ∀ (pending : List String) (cs : List (String × List String)),
      MergeInv base ia target cs pending →
      MergeInv base ia target
        (pending.foldl (fun cs src => mergeOne cs target src) cs) [] := by
  intro pending
  induction pending with
  | nil => exact fun cs h => h
  | cons src t ih =>
    intro cs h
    exact ih _ h.step

theorem addToClusterId_fst (c : String × List String) (cid : String)
    (addrs : List String) :
    (if c.1 = cid then (c.1, setUnion c.2 addrs) else c).1 = c.1 := by
  by_cases h : c.1 = cid
  · rw [if_pos h]
  · rw [if_neg h]

theorem addToClusterId_snd_sub (c : String × List String) (cid : String)
    (addrs : List String) :
    ∀ x, x ∈ (if c.1 = cid then (c.1, setUnion c.2 addrs) else c).2 →
      x ∈ c.2 ∨ (c.1 = cid ∧ x ∈ addrs) := by
  intro x hx
  by_cases h : c.1 = cid
  · rw [if_pos h] at hx
    rcases mem_setUnion.1 hx with hx | hx
    · exact Or.inl hx
    · exact Or.inr ⟨h, hx⟩
  · rw [if_neg h] at hx
    exact Or.inl hx

theorem memAddr_addToClusterId {cs : List (String × List String)} {cid : String}
    {addrs : List String} {a : String} (hcid : cid ∈ ids cs) :
    memAddr (addToClusterId cs cid addrs) a ↔ memAddr cs a ∨ a ∈ addrs := by
  constructor
  · rintro ⟨c', hc', ha⟩
    rw [mem_addToClusterId_iff] at hc'
    obtain ⟨c, hc, rfl⟩ := hc'
    rcases addToClusterId_snd_sub c cid addrs a ha with ha | ⟨_, ha⟩
    · exact Or.inl ⟨c, hc, ha⟩
    · exact Or.inr ha
  · rintro (⟨c, hc, ha⟩ | ha)
    · refine ⟨(if c.1 = cid then (c.1, setUnion c.2 addrs) else c),
        mem_addToClusterId_iff.2 ⟨c, hc, rfl⟩, ?_⟩
      by_cases h : c.1 = cid
      · rw [if_pos h]
        exact subset_setUnion_left _ _ ha
      · rw [if_neg h]
        exact ha
    · obtain ⟨t, ht, ht1⟩ := mem_ids_iff.1 hcid
      refine ⟨(if t.1 = cid then (t.1, setUnion t.2 addrs) else t),
        mem_addToClusterId_iff.2 ⟨t, ht, rfl⟩, ?_⟩
      rw [if_pos ht1]
      exact subset_setUnion_right _ _ ha

/-- The merge fold of one qualifying transaction, starting from the touched
clusters other than the first. -/
theorem mergeInv_init {cs : List (String × List String)} {ia : List String}
    {target : String} {rest : List String}
    (hex : existingClustersFor cs ia = target :: rest)
    (hnd : (ids cs).Nodup) (hdisj : DisjointClusters cs) :
    MergeInv cs ia target (addToClusterId cs target ia) rest := by
  have hexnd := nodup_existingClustersFor cs ia
  rw [hex, List.nodup_cons] at hexnd
  have htarget_ids : target ∈ ids cs :=
    existingClustersFor_sub (by rw [hex]; exact List.mem_cons_self _ _)
  obtain ⟨t, ht, ht1⟩ := mem_ids_iff.1 htarget_ids
  have hform : ∀ c' ∈ addToClusterId cs target ia,
      ∃ c ∈ cs, c' = (if c.1 = target then (c.1, setUnion c.2 ia) else c) :=
    fun c' hc' => mem_addToClusterId_iff.1 hc'
  refine ⟨?_, ?_, ?_, ?_, ?_, ?_, ?_, ?_⟩
  · rw [ids_addToClusterId]
    exact hnd
  · intro x hx
    rw [ids_addToClusterId] at hx
    exact hx
  · refine ⟨(if t.1 = target then (t.1, setUnion t.2 ia) else t),
      mem_addToClusterId_iff.2 ⟨t, ht, rfl⟩, ?_⟩
    rw [if_pos ht1]
    exact ⟨ht1, subset_setUnion_right _ _⟩
  · exact hexnd.2
  · intro s hs
    constructor
    · rw [ids_addToClusterId]
      exact existingClustersFor_sub
        (by rw [hex]; exact List.mem_cons_of_mem _ hs)
    · intro hst
      exact hexnd.1 (hst ▸ hs)
  · intro c' hc' d' hd' hne hex1 hex2 a ha hb
    obtain ⟨c, hc, rfl⟩ := hform c' hc'
    obtain ⟨d, hd, rfl⟩ := hform d' hd'
    rw [addToClusterId_fst, addToClusterId_fst] at hne hex1 hex2
    rcases addToClusterId_snd_sub c target ia a ha with hac | ⟨hct, hac⟩ <;>
      rcases addToClusterId_snd_sub d target ia a hb with had | ⟨hdt, had⟩
    · exact hdisj c hc d hd hne a hac had
    · -- a is in c, and in ia added to the target d
      have hcx : c.1 ∈ existingClustersFor cs ia :=
        mem_existingClustersFor.2 ⟨a, had, c, hc, rfl, hac⟩
      rw [hex] at hcx
      rcases List.mem_cons.1 hcx with hcx | hcx
      · exact hne (hcx.trans hdt.symm)
      · exact hex2 hdt hcx
    · have hdx : d.1 ∈ existingClustersFor cs ia :=
        mem_existingClustersFor.2 ⟨a, hac, d, hd, rfl, had⟩
      rw [hex] at hdx
      rcases List.mem_cons.1 hdx with hdx | hdx
      · exact hne (hct.trans hdx.symm)
      · exact hex1 hct hdx
    · exact hne (hct.trans hdt.symm)
  · intro a
    exact memAddr_addToClusterId htarget_ids
  · intro c hc
    refine ⟨(if c.1 = target then (c.1, setUnion c.2 ia) else c),
      mem_addToClusterId_iff.2 ⟨c, hc, rfl⟩, ?_⟩
    by_cases h : c.1 = target
    · rw [if_pos h]
      exact subset_setUnion_left _ _
    · rw [if_neg h]
      exact fun a ha => ha

/-- Normal form of one step of the common-input pass: the one-cluster case is
the merge case with an empty merge list. -/
theorem ccStep_eq (st : CCState) (tx : Transaction) :
    ccStep st tx =
      if (getInputAddresses tx).length ≤ 1 then st
      else
        match existingClustersFor st.clusters (getInputAddresses tx) with
        | [] =>
          { clusters :=
              st.clusters ++ [(mkId st.counter, setOfList (getInputAddresses tx))],
            counter := st.counter + 1 }
        | target :: rest =>
          { st with
            clusters := rest.foldl (fun cs src => mergeOne cs target src)
              (addToClusterId st.clusters target (getInputAddresses tx)) } := by
  unfold ccStep
  by_cases hlen : (getInputAddresses tx).length ≤ 1
  · rw [if_pos hlen, if_pos hlen]
  · rw [if_neg hlen, if_neg hlen]
    rcases hex : existingClustersFor st.clusters (getInputAddresses tx) with
      _ | ⟨target, rest⟩
    · rfl
    · rcases rest with _ | ⟨s2, rest2⟩ <;> rfl

/-- Invariant of the whole common-input pass after a prefix of transactions. -/
structure CCInv (processed : List Transaction) (st : CCState) : Prop where
  nodup : (ids st.clusters).Nodup
  fresh : ∀ x ∈ ids st.clusters, ∃ k, k < st.counter ∧ x = mkId k
  disj : DisjointClusters st.clusters
  cover : ∀ a, memAddr st.clusters a ↔
      ∃ tx ∈ processed, 2 ≤ (getInputAddresses tx).length ∧ a ∈ getInputAddresses tx
  together : ∀ tx ∈ processed, 2 ≤ (getInputAddresses tx).length →
      ∃ c ∈ st.clusters, ∀ a ∈ getInputAddresses tx, a ∈ c.2

theorem memAddr_append_single {cs : List (String × List String)}
    {e : String × List String} {a : String} :
    memAddr (cs ++ [e]) a ↔ memAddr cs a ∨ a ∈ e.2 := by
  unfold memAddr
  constructor
  · rintro ⟨c, hc, ha⟩
    rcases List.mem_append.1 hc with hc | hc
    · exact Or.inl ⟨c, hc, ha⟩
    · simp at hc
      exact Or.inr (hc ▸ ha)
  · rintro (⟨c, hc, ha⟩ | ha)
    · exact ⟨c, List.mem_append.2 (Or.inl hc), ha⟩
    · exact ⟨e, List.mem_append.2 (Or.inr (by simp)), ha⟩

theorem ccInv_step {processed : List Transaction} {st : CCState}
    (tx : Transaction) (h : CCInv processed st) :
    CCInv (processed ++ [tx]) (ccStep st tx) := by
  rw [ccStep_eq]
  by_cases hlen : (getInputAddresses tx).length ≤ 1
  · rw [if_pos hlen]
    refine ⟨h.nodup, h.fresh, h.disj, ?_, ?_⟩
    · intro a
      rw [h.cover a]
      constructor
      · rintro ⟨t, ht, h2, h3⟩
        exact ⟨t, List.mem_append.2 (Or.inl ht), h2, h3⟩
      · rintro ⟨t, ht, h2, h3⟩
        rcases List.mem_append.1 ht with ht | ht
        · exact ⟨t, ht, h2, h3⟩
        · simp at ht
          subst ht
          omega
    · intro t ht h2
      rcases List.mem_append.1 ht with ht | ht
      · exact h.together t ht h2
      · simp at ht
        subst ht
        omega
  · rw [if_neg hlen]
    have hlen2 : 2 ≤ (getInputAddresses tx).length := by omega
    rcases hex : existingClustersFor st.clusters (getInputAddresses tx) with
      _ | ⟨target, rest⟩
    · -- no touched cluster: a fresh cluster is appended
      dsimp only
      have hnone : ∀ a ∈ getInputAddresses tx, ∀ c ∈ st.clusters, a ∉ c.2 := by
        intro a ha c hc hac
        have hm : c.1 ∈ existingClustersFor st.clusters (getInputAddresses tx) :=
          mem_existingClustersFor.2 ⟨a, ha, c, hc, rfl, hac⟩
        rw [hex] at hm
        simp at hm
      have hfreshid : mkId st.counter ∉ ids st.clusters := by
        intro hm
        obtain ⟨k, hk, hke⟩ := h.fresh _ hm
        have := mkId_inj hke.symm
        omega
      refine ⟨?_, ?_, ?_, ?_, ?_⟩
      · show (ids (st.clusters ++ [(mkId st.counter, setOfList (getInputAddresses tx))])).Nodup
        unfold ids
        rw [List.map_append, List.nodup_append]
        refine ⟨h.nodup, by simp, ?_⟩
        intro x hx hx2
        simp at hx2
        exact hfreshid (hx2 ▸ hx)
      · intro x hx
        unfold ids at hx
        rw [List.map_append] at hx
        rcases List.mem_append.1 hx with hx | hx
        · obtain ⟨k, hk, hke⟩ := h.fresh _ hx
          exact ⟨k, by show k < st.counter + 1; omega, hke⟩
        · simp at hx
          exact ⟨st.counter, by show st.counter < st.counter + 1; omega, hx⟩
      · intro c hc d hd hne a hac had
        rcases List.mem_append.1 hc with hc | hc <;>
          rcases List.mem_append.1 hd with hd | hd
        · exact h.disj c hc d hd hne a hac had
        · simp at hd
          subst hd
          simp only at had
          rw [mem_setOfList] at had
          exact hnone a had c hc hac
        · simp at hc
          subst hc
          simp only at hac
          rw [mem_setOfList] at hac
          exact hnone a hac d hd had
        · simp at hc hd
          subst hc
          subst hd
          exact hne rfl
      · intro a
        rw [memAddr_append_single]
        simp only [mem_setOfList]
        rw [h.cover a]
        constructor
        · rintro (⟨t, ht, h2, h3⟩ | ha)
          · exact ⟨t, List.mem_append.2 (Or.inl ht), h2, h3⟩
          · exact ⟨tx, List.mem_append.2 (Or.inr (by simp)), hlen2, ha⟩
        · rintro ⟨t, ht, h2, h3⟩
          rcases List.mem_append.1 ht with ht | ht
          · exact Or.inl ⟨t, ht, h2, h3⟩
          · simp at ht
            subst ht
            exact Or.inr h3
      · intro t ht h2
        rcases List.mem_append.1 ht with ht | ht
        · obtain ⟨c, hc, hsub⟩ := h.together t ht h2
          exact ⟨c, List.mem_append.2 (Or.inl hc), hsub⟩
        · simp at ht
          subst ht
          refine ⟨(mkId st.counter, setOfList (getInputAddresses t)),
            List.mem_append.2 (Or.inr (by simp)), ?_⟩
          intro a ha
          simp only
          rw [mem_setOfList]
          exact ha
    · -- at least one touched cluster: extend the first and merge the rest
      dsimp only
      have hmi := MergeInv.fold rest _ (mergeInv_init hex h.nodup h.disj)
      refine ⟨hmi.nodup, ?_, ?_, ?_, ?_⟩
      · intro x hx
        exact h.fresh x (hmi.idsub x hx)
      · intro c hc d hd hne a hac had
        exact hmi.disj c hc d hd hne (by simp) (by simp) a hac had
      · intro a
        rw [hmi.memiff a, h.cover a]
        constructor
        · rintro (⟨t, ht, h2, h3⟩ | ha)
          · exact ⟨t, List.mem_append.2 (Or.inl ht), h2, h3⟩
          · exact ⟨tx, List.mem_append.2 (Or.inr (by simp)), hlen2, ha⟩
        · rintro ⟨t, ht, h2, h3⟩
          rcases List.mem_append.1 ht with ht | ht
          · exact Or.inl ⟨t, ht, h2, h3⟩
          · simp at ht
            subst ht
            exact Or.inr h3
      · intro t ht h2
        rcases List.mem_append.1 ht with ht | ht
        · obtain ⟨c, hc, hsub⟩ := h.together t ht h2
          obtain ⟨c', hc', hsub'⟩ := hmi.mono c hc
          exact ⟨c', hc', fun a ha => hsub' (hsub a ha)⟩
        · simp at ht
          subst ht
          obtain ⟨t', ht', _, hsub⟩ := hmi.tgt
          exact ⟨t', ht', fun a ha => hsub ha⟩

theorem ccInv_fold {processed : List Transaction} {st : CCState}
    (txs : List Transaction) (h : CCInv processed st) :
    CCInv (processed ++ txs) (txs.foldl ccStep st) := by
  induction txs generalizing processed st with
  | nil => simpa using h
  | cons tx t ih =>
    have h2 := ih (ccInv_step tx h)
    simpa using h2

theorem ccInv_commonInput (txs : List Transaction) :
    CCInv txs ((txs.foldl ccStep { clusters := [], counter := 1 })) := by
  have h0 : CCInv [] { clusters := [], counter := 1 } := by
    refine ⟨by simp [ids], by simp [ids], ?_, ?_, ?_⟩
    · intro c hc
      simp at hc
    · intro a
      unfold memAddr
      simp
    · intro t ht
      simp at ht
  simpa using ccInv_fold txs h0

/-! Change-address identification. -/

/-- isChangeAddressCandidate: the source's placeholder accepts every
transaction. -/
def isChangeAddressCandidate (_tx : Transaction) : Bool := true

/-- hasAddressAppearedBefore: the address occurs among the inputs or outputs
of a transaction strictly before the first transaction carrying the current
transaction's hash (the source locates the current transaction by hash with
findIndex). -/
def hasAddressAppearedBefore (address : String) (currentTx : Transaction)
    (allTransactions : List Transaction) : Bool :=
  let currentTxIndex := allTransactions.findIdx (fun t => t.hash = currentTx.hash)
  let previousTransactions := allTransactions.take currentTxIndex
  previousTransactions.any (fun t =>
    (getInputAddresses t).contains address ||
    (getOutputAddresses t).contains address)

/-- One transaction of the change-address pass. -/
def caStep (allTxs : List Transaction) (clusters : List (String × List String))
    (tx : Transaction) : List (String × List String) :=
  if isChangeAddressCandidate tx = false then clusters
  else
    let inputAddresses := getInputAddresses tx
    let outputAddresses := getOutputAddresses tx
    let potentialChangeAddresses := outputAddresses.filter
      (fun a => ! hasAddressAppearedBefore a tx allTxs)
    if potentialChangeAddresses.length ≠ 1 then clusters
    else
      match potentialChangeAddresses with
      | [] => clusters
      | changeAddress :: _ =>
        match clusters.find? (fun c => inputAddresses.any (fun a => c.2.contains a)) with
        | some owner => objSet clusters owner.1 (owner.2 ++ [changeAddress])
        | none =>
          objSet clusters ("cluster_" ++ Nat.repr (clusters.length + 1))
            (inputAddresses ++ [changeAddress])

/-- changeAddressIdentification: fold the change-address heuristic over the
transactions; the source's JSON-based deep clone of the incoming clusters is
the identity on these pure values. -/
def changeAddressIdentification (transactions : List Transaction)
    (clusters : List (String × List String)) : List (String × List String) :=
  transactions.foldl (caStep transactions) clusters

/-! Behavioral clustering. The source calls areFeaturesSimilar, but only
defines a helper named areFeaturesSimlar, so the call raises a
ReferenceError as soon as it is reached; the embedding raises the
corresponding error at the same call site. -/

structure BehavioralFeatures where
  transactionCount : ℚ
  averageValue : ℚ
  timePattern : List ℚ
  gasPriceAvg : ℚ
  contractInteractions : List String
deriving Repr, DecidableEq

/-- calculateBehavioralFeatures (clustering service copy): placeholder
returning all-zero features. -/
def calculateBehavioralFeaturesClustering (_address : String)
    (_transactions : List Transaction) : BehavioralFeatures :=
  { transactionCount := 0, averageValue := 0, timePattern := [],
    gasPriceAvg := 0, contractInteractions := [] }

/-- behavioralClustering: group unprocessed addresses, comparing each new
cluster seed against the remaining addresses; the similarity comparison is a
call to an undefined identifier and therefore throws when reached. -/
def behavioralClustering (transactions : List Transaction)
    (addresses : List String) : Except String (List (String × List String)) :=
  let _addressFeatures := addresses.map
    (fun a => (a, calculateBehavioralFeaturesClustering a transactions))
  let core : Except String (List (String × List String) × Nat × List String) :=
    addresses.foldlM
      (fun (acc : List (String × List String) × Nat × List String) address =>
        let clusters := acc.1
        let counter := acc.2.1
        let processed := acc.2.2
        if address ∈ processed then pure acc
        else
          let newClusterId := "behavioral_cluster_" ++ Nat.repr counter
          let clusters := objSet clusters newClusterId [address]
          let processed := setAdd processed address
          (addresses.foldlM
            (fun (acc2 : List (String × List String) × List String) otherAddress =>
              if address = otherAddress ∨ otherAddress ∈ acc2.2 then pure acc2
              else Except.error "areFeaturesSimilar is not defined")
            (clusters, processed)).map
            (fun acc2 => (acc2.1, counter + 1, acc2.2)))
      ([], 1, [])
  match core with
  | .ok v => .ok v.1
  | .error m => .error ("Behavioral clustering failed: " ++ m)

/-- combinedClustering: common-input pass, then change-address pass, then
behavioral clustering over the residual unclustered addresses. -/
def combinedClustering (transactions : List Transaction)
    (addresses : List String) : Except String (List (String × List String)) :=
  let inputClusters := commonInputClustering transactions
  let updatedClusters := changeAddressIdentification transactions inputClusters
  let clusteredAddresses := updatedClusters.foldl (fun s c => setUnion s c.2) []
  let unclusteredAddresses := addresses.filter
    (fun a => ! clusteredAddresses.contains a)
  if unclusteredAddresses.length > 0 then
    match behavioralClustering transactions unclusteredAddresses with
    | .ok behavioralClusters =>
      .ok (behavioralClusters.foldl (fun cs p => objSet cs p.1 p.2) updatedClusters)
    | .error m => .error ("Combined clustering failed: " ++ m)
  else .ok updatedClusters

example : combinedClustering
    [{ hash := "h1", timestamp := 0, sender := "", receiver := "c", value := 0,
       inputs := some ["a", "b"], outputs := none },
     { hash := "h2", timestamp := 0, sender := "", receiver := "e", value := 0,
       inputs := some ["c", "d"], outputs := none }] [] =
    .ok [("cluster_1", ["a", "b", "c", "e"]), ("cluster_2", ["c", "d"])] := rfl

example : combinedClustering [] ["a", "b"] =
    .error "Combined clustering failed: Behavioral clustering failed: areFeaturesSimilar is not defined" := rfl

example : combinedClustering [] ["a"] =
    .ok [("behavioral_cluster_1", ["a"])] := rfl

/-! Claim C1: partition behaviour of the clustering output, and C2: merge
transitivity of the common-input pass. -/

/-- Transaction whose change address lands in another transaction's input
cluster: inputs a, b with output c. -/
def cexT1 : Transaction :=
  { hash := "h1", timestamp := 0, sender := "", receiver := "c", value := 0,
    inputs := some ["a", "b"], outputs := none }

/-- Transaction co-spending c (the change address of cexT1) with d. -/
def cexT2 : Transaction :=
  { hash := "h2", timestamp := 0, sender := "", receiver := "e", value := 0,
    inputs := some ["c", "d"], outputs := none }

/-- C1 counterexample: on the two transactions cexT1, cexT2 the combined
clustering output contains two distinct clusters that both contain the
address c, so the combined output is not a partition: the change-address pass
appends c to the spender cluster of cexT1 although the common-input pass had
already placed c in the cluster of cexT2. -/
theorem combinedClustering_not_partition_cex :
    combinedClustering [cexT1, cexT2] [] =
      .ok [("cluster_1", ["a", "b", "c", "e"]), ("cluster_2", ["c", "d"])] ∧
    ("cluster_1", (["a", "b", "c", "e"] : List String)) ≠ ("cluster_2", ["c", "d"]) ∧
    "c" ∈ (["a", "b", "c", "e"] : List String) ∧
    "c" ∈ (["c", "d"] : List String) :=
  ⟨rfl, by decide, by decide, by decide⟩

/-- C1 (amended): the common-input pass alone is a partition — distinct
clusters of commonInputClustering share no address (so every address lies in
at most one cluster), and the union of its clusters is exactly the set of
input addresses of transactions with at least two inputs. The combined
output after change-address identification is not disjoint in general. -/
theorem commonInputClustering_partition (txs : List Transaction) :
    (∀ c ∈ commonInputClustering txs, ∀ d ∈ commonInputClustering txs,
        ∀ a, a ∈ c.2 → a ∈ d.2 → c = d) ∧
    (∀ a, (∃ c ∈ commonInputClustering txs, a ∈ c.2) ↔
        ∃ tx ∈ txs, 2 ≤ (getInputAddresses tx).length ∧
          a ∈ getInputAddresses tx) := by
  have h := ccInv_commonInput txs
  constructor
  · intro c hc d hd a hac had
    by_cases he : c.1 = d.1
    · exact eq_of_mem_nodup_ids h.nodup hc hd he
    · exact absurd had (h.disj c hc d hd he a hac)
  · exact h.cover

theorem commonInputClustering_partition_witness :
    ("cluster_1", (["a", "b"] : List String)) ∈ commonInputClustering [cexT1] ∧
    (("cluster_1", (["a", "b"] : List String)) = ("cluster_1", ["a", "b"])) :=
  ⟨by decide,
    (commonInputClustering_partition [cexT1]).1 ("cluster_1", ["a", "b"])
      (by decide) ("cluster_1", ["a", "b"]) (by decide) "a" (by decide)
      (by decide)⟩

/-- C2 (confirmed): whenever a transaction list contains a transaction
co-spending A and B and a transaction co-spending B and C, each with at
least two distinct inputs, the common-input clustering puts A, B and C into
one cluster; the statement quantifies over arbitrary lists, so it holds for
either processing order of the two transactions. -/
theorem commonInputClustering_merge_transitive (txs : List Transaction)
    (t1 t2 : Transaction) (A B C : String)
    (h1 : t1 ∈ txs) (h2 : t2 ∈ txs)
    (hd1 : 2 ≤ (getInputAddresses t1).dedup.length)
    (hd2 : 2 ≤ (getInputAddresses t2).dedup.length)
    (hA : A ∈ getInputAddresses t1) (hB1 : B ∈ getInputAddresses t1)
    (hB2 : B ∈ getInputAddresses t2) (hC : C ∈ getInputAddresses t2) :
    ∃ p ∈ commonInputClustering txs, A ∈ p.2 ∧ B ∈ p.2 ∧ C ∈ p.2 := by
  have h := ccInv_commonInput txs
  have hl1 : 2 ≤ (getInputAddresses t1).length :=
    le_trans hd1 (List.Sublist.length_le (List.dedup_sublist _))
  have hl2 : 2 ≤ (getInputAddresses t2).length :=
    le_trans hd2 (List.Sublist.length_le (List.dedup_sublist _))
  obtain ⟨c1, hc1, hsub1⟩ := h.together t1 h1 hl1
  obtain ⟨c2, hc2, hsub2⟩ := h.together t2 h2 hl2
  have hBc1 := hsub1 B hB1
  have hBc2 := hsub2 B hB2
  have hceq : c1 = c2 := by
    by_cases he : c1.1 = c2.1
    · exact eq_of_mem_nodup_ids h.nodup hc1 hc2 he
    · exact absurd hBc2 (h.disj c1 hc1 c2 hc2 he B hBc1)
  refine ⟨c1, hc1, hsub1 A hA, hBc1, ?_⟩
  rw [hceq]
  exact hsub2 C hC

/-- First witness transaction for merge transitivity: co-spends A and B. -/
def wS1 : Transaction :=
  { hash := "t1", timestamp := 0, sender := "", receiver := "", value := 0,
    inputs := some ["A", "B"], outputs := none }

/-- Second witness transaction for merge transitivity: co-spends B and C. -/
def wS2 : Transaction :=
  { hash := "t2", timestamp := 0, sender := "", receiver := "", value := 0,
    inputs := some ["B", "C"], outputs := none }

theorem commonInputClustering_merge_transitive_witness :
    (∃ p ∈ commonInputClustering [wS1, wS2],
      "A" ∈ p.2 ∧ "B" ∈ p.2 ∧ "C" ∈ p.2) ∧
    (∃ p ∈ commonInputClustering [wS2, wS1],
      "A" ∈ p.2 ∧ "B" ∈ p.2 ∧ "C" ∈ p.2) :=
  ⟨commonInputClustering_merge_transitive [wS1, wS2] wS1 wS2 "A" "B" "C"
      (by decide) (by decide) (by decide) (by decide) (by decide) (by decide)
      (by decide) (by decide),
    commonInputClustering_merge_transitive [wS2, wS1] wS1 wS2 "A" "B" "C"
      (by decide) (by decide) (by decide) (by decide) (by decide) (by decide)
      (by decide) (by decide)⟩

/-- C6: the combined clustering is not failure-free. With no transactions and
two residual addresses, behavioral clustering reaches the similarity
comparison, which calls the undefined identifier areFeaturesSimilar (the
helper is defined as areFeaturesSimlar), so the whole run fails with the
wrapped ReferenceError. -/
theorem combinedClustering_reference_error :
    combinedClustering [] ["addr1", "addr2"] =
      .error "Combined clustering failed: Behavioral clustering failed: areFeaturesSimilar is not defined" :=
  rfl

/-! Entity attribution service. The Entity Store is an external collaborator
(services/entity is not part of this tree); it is modelled as a record of
the five operations the spec lists, each an Except-valued function so that
store failures can be expressed. -/

structure Entity where
  id : String
  name : String
  type : String
  description : String
  addresses : List String
  confidenceScore : ℚ
deriving Repr, DecidableEq

/-- Payload of createEntity (an entity without an id). -/
structure EntityNew where
  name : String
  type : String
  description : String
  addresses : List String
  confidenceScore : ℚ
deriving Repr, DecidableEq

structure EntityStore where
  getEntities : Except String (List Entity)
  findEntityForAddress : String → Except String (Option Entity)
  getEntityById : String → Except String Entity
  createEntity : EntityNew → Except String Entity
  updateEntity : String → List String → Except String Entity

/-- One potential attribution collected from a matched address. -/
structure AttributionHit where
  entityId : String
  entityName : String
  entityType : String
  matchedAddress : String
  confidenceBase : ℚ
deriving Repr, DecidableEq

def mkHit (e : Entity) (address : String) : AttributionHit :=
  { entityId := e.id, entityName := e.name, entityType := e.type,
    matchedAddress := address, confidenceBase := e.confidenceScore }

/-- A group of hits for one entity; baseConfidence is the confidenceBase of
the first hit for that entity, count the number of hits. -/
structure EntityGroup where
  entityId : String
  entityName : String
  entityType : String
  count : Nat
  baseConfidence : ℚ
deriving Repr, DecidableEq

structure ConsensusAttribution where
  entityId : String
  entityName : String
  entityType : String
  confidence : ℚ
  matchedAddresses : List String
deriving Repr, DecidableEq

/-- One hit of the grouping pass: bump the count of an existing group or
open a new group carrying the hit's entity fields and base confidence. -/
def groupStep (gs : List (String × EntityGroup)) (attr : AttributionHit) :
    List (String × EntityGroup) :=
  if gs.any (fun g => g.1 = attr.entityId) then
    gs.map (fun g =>
      if g.1 = attr.entityId then (g.1, { g.2 with count := g.2.count + 1 })
      else g)
  else
    gs ++ [(attr.entityId,
      { entityId := attr.entityId, entityName := attr.entityName,
        entityType := attr.entityType, count := 1,
        baseConfidence := attr.confidenceBase })]

/-- Group the hits by entity id, in first-hit order. -/
def groupHits (attributions : List AttributionHit) :
    List (String × EntityGroup) :=
  attributions.foldl groupStep []

/-- One step of the best-group search: strict improvement on the hit count. -/
def bestStep (acc : Option EntityGroup × Nat) (g : String × EntityGroup) :
    Option EntityGroup × Nat :=
  if g.2.count > acc.2 then (some g.2, g.2.count) else acc

/-- The group with the most hits (strict improvement, so the first maximal
group wins); none only when there are no groups. -/
def bestGroup (gs : List (String × EntityGroup)) : Option EntityGroup :=
  (gs.foldl bestStep (none, 0)).1

/-- calculateConsensusAttribution. On an empty hit list the source would
fault (it reads a field of an undefined best entity), so the result is none;
both callers only invoke it with a non-empty hit list. -/
def calculateConsensusAttribution (attributions : List AttributionHit)
    (totalAddresses : ℚ) : Option ConsensusAttribution :=
  let entityGroups := groupHits attributions
  match bestGroup entityGroups with
  | none => none
  | some g =>
    let coverageScore := (g.count : ℚ) / totalAddresses
    let baseConfidence := g.baseConfidence
    let consensusStrength := (g.count : ℚ) / (attributions.length : ℚ)
    let confidence :=
      coverageScore * (3/10) + baseConfidence * (4/10) + consensusStrength * (3/10)
    some
      { entityId := g.entityId, entityName := g.entityName,
        entityType := g.entityType, confidence := min (99/100) confidence,
        matchedAddresses := setOfList (attributions.map (fun a => a.matchedAddress)) }

/-- Per-cluster attribution record. -/
structure AttributionResult where
  entityId : Option String
  entityName : String
  entityType : String
  confidence : ℚ
  addresses : List String
  matchedAddresses : List String
deriving Repr, DecidableEq

/-- attributeClusters: look up every member address of every cluster in the
Entity Store, compute the consensus attribution per cluster, and wrap any
store failure into a run-level error. -/
def attributeClusters (store : EntityStore)
    (clusters : List (String × List String)) :
    Except String (List (String × AttributionResult)) :=
  let core : Except String (List (String × AttributionResult)) := do
    let _entities ← store.getEntities
    clusters.foldlM
      (fun acc cluster => do
        let attributions ← cluster.2.foldlM
          (fun (hits : List AttributionHit) address => do
            let entity ← store.findEntityForAddress address
            match entity with
            | some e => pure (hits ++ [mkHit e address])
            | none => pure hits)
          []
        if attributions.length > 0 then
          match calculateConsensusAttribution attributions (cluster.2.length : ℚ) with
          | some attribution =>
            pure (acc ++ [(cluster.1,
              { entityId := some attribution.entityId,
                entityName := attribution.entityName,
                entityType := attribution.entityType,
                confidence := attribution.confidence,
                addresses := cluster.2,
                matchedAddresses := attribution.matchedAddresses })])
          | none => pure acc
        else
          pure (acc ++ [(cluster.1,
            { entityId := none, entityName := "Unknown",
              entityType := "Unknown", confidence := 0,
              addresses := cluster.2, matchedAddresses := [] })]))
      []
  match core with
  | .ok v => .ok v
  | .error m => .error ("Cluster attribution failed: " ++ m)

/-- calculateBehavioralFeatures (attribution service copy): placeholder whose
only live field is the transaction count. -/
def calculateBehavioralFeaturesAttribution (_address : String)
    (transactions : List Transaction) : BehavioralFeatures :=
  { transactionCount := (transactions.length : ℚ), averageValue := 0,
    timePattern := [], gasPriceAvg := 0, contractInteractions := [] }

/-- calculateInteractionScore: share of the transactions whose counterparty
is one of the entity's addresses, scaled by 1.5 and capped at 0.95. -/
def calculateInteractionScore (address : String) (entityAddresses : List String)
    (transactions : List Transaction) : ℚ :=
  let interactionCount := transactions.countP
    (fun tx =>
      (tx.sender = address ∧ entityAddresses.contains tx.receiver) ∨
      (tx.receiver = address ∧ entityAddresses.contains tx.sender))
  let interactionRatio :=
    if transactions.length > 0 then
      (interactionCount : ℚ) / (transactions.length : ℚ)
    else 0
  min (19/20) (interactionRatio * (3/2))

structure BehavioralMatch where
  entityId : String
  entityName : String
  entityType : String
  confidence : ℚ
deriving Repr, DecidableEq

/-- One entity of the behavioral comparison: entities without addresses are
skipped, otherwise the 70/30 combination of the interaction score and the
placeholder pattern score replaces the best match when it improves it and
exceeds 0.5. -/
def behaviorStep (address : String) (transactions : List Transaction)
    (acc : Option Entity × ℚ) (entity : Entity) : Option Entity × ℚ :=
  if entity.addresses.length = 0 then acc
  else
    let interactionScore :=
      calculateInteractionScore address entity.addresses transactions
    let patternScore : ℚ := 3/10
    let score := interactionScore * (7/10) + patternScore * (3/10)
    if score > acc.2 ∧ score > 1/2 then (some entity, score) else acc

/-- attributeByBehavior: compare the address against every known entity's
address set; keep the best score above 0.5. -/
def attributeByBehavior (store : EntityStore) (address : String)
    (transactions : List Transaction) :
    Except String (Option BehavioralMatch) :=
  let core : Except String (Option BehavioralMatch) := do
    let entities ← store.getEntities
    let _addressFeatures := calculateBehavioralFeaturesAttribution address transactions
    let best := entities.foldl (behaviorStep address transactions) (none, 0)
    match best.1 with
    | some e =>
      pure (some
        { entityId := e.id, entityName := e.name,
          entityType := e.type, confidence := best.2 })
    | none => pure none
  match core with
  | .ok v => .ok v
  | .error m => .error ("Behavioral attribution failed: " ++ m)

/-- Attribution record for a single address. The source omits the related
and matched address fields on paths that do not produce them; here they are
empty lists on those paths. -/
structure AddressAttribution where
  entityId : Option String
  entityName : String
  entityType : String
  confidence : ℚ
  attributionMethod : String
  relatedAddresses : List String
  matchedAddresses : List String
deriving Repr, DecidableEq

def unknownAddressAttribution : AddressAttribution :=
  { entityId := none, entityName := "Unknown", entityType := "Unknown",
    confidence := 0, attributionMethod := "none", relatedAddresses := [],
    matchedAddresses := [] }

/-- attributeAddress: direct store lookup, then cluster analysis over the
supplied transactions, then behavioral analysis, then Unknown. -/
def attributeAddress (store : EntityStore) (address : String)
    (transactions : List Transaction) : Except String AddressAttribution :=
  let core : Except String AddressAttribution := do
    let knownEntity ← store.findEntityForAddress address
    match knownEntity with
    | some e =>
      pure
        { entityId := some e.id, entityName := e.name, entityType := e.type,
          confidence := e.confidenceScore, attributionMethod := "direct_match",
          relatedAddresses := [], matchedAddresses := [] }
    | none => do
      let addressTransactions := transactions
      let relatedAddresses ←
        if addressTransactions.length > 0 then do
          let addresses := addressTransactions.foldl
            (fun s tx => setUnion s (getInputAddresses tx ++ getOutputAddresses tx))
            []
          let clusters ← combinedClustering addressTransactions addresses
          pure
            (match clusters.find? (fun c => c.2.contains address) with
            | some c => c.2.filter (fun addr => ¬ addr = address)
            | none => [])
        else pure []
      let attributions ← relatedAddresses.foldlM
        (fun (hits : List AttributionHit) relatedAddress => do
          let entity ← store.findEntityForAddress relatedAddress
          match entity with
          | some e => pure (hits ++ [mkHit e relatedAddress])
          | none => pure hits)
        []
      if attributions.length > 0 then
        match calculateConsensusAttribution attributions (relatedAddresses.length : ℚ) with
        | some attribution =>
          pure
            { entityId := some attribution.entityId,
              entityName := attribution.entityName,
              entityType := attribution.entityType,
              confidence := attribution.confidence,
              attributionMethod := "cluster_analysis",
              relatedAddresses := relatedAddresses,
              matchedAddresses := attribution.matchedAddresses }
        | none => pure unknownAddressAttribution
      else do
        let behavioralAttribution ← attributeByBehavior store address addressTransactions
        match behavioralAttribution with
        | some b =>
          if b.confidence > 1/2 then
            pure
              { entityId := some b.entityId, entityName := b.entityName,
                entityType := b.entityType, confidence := b.confidence,
                attributionMethod := "behavioral_analysis",
                relatedAddresses := [], matchedAddresses := [] }
          else pure unknownAddressAttribution
        | none => pure unknownAddressAttribution
  match core with
  | .ok v => .ok v
  | .error m => .error ("Address attribution failed: " ++ m)

/-! updateEntitiesWithAttributions. Per-cluster store failures are caught and
recorded as skipped entries, so the function as a whole always returns. -/

structure UpdateUpdatedEntry where
  clusterId : String
  entityId : String
  entityName : String
  addressesAdded : List String
deriving Repr, DecidableEq

structure UpdateCreatedEntry where
  clusterId : String
  entityId : String
  entityName : String
  addressCount : Nat
deriving Repr, DecidableEq

/-- A skipped entry; optional fields are only present on some reasons. -/
structure UpdateSkipEntry where
  clusterId : String
  entityId : Option String
  reason : String
  confidence : Option ℚ
  addressCount : Option Nat
  errorMessage : Option String
deriving Repr, DecidableEq

structure UpdateResults where
  updated : List UpdateUpdatedEntry
  created : List UpdateCreatedEntry
  skipped : List UpdateSkipEntry
deriving Repr, DecidableEq

/-- One attribution result of the update pass: skip low confidence, update
an attributed entity (catching store failures as update_error), create an
entity for unattributed clusters of at least 3 addresses (catching failures
as creation_error), and skip small unattributed clusters. -/
def updateStep (store : EntityStore) (confidenceThreshold : ℚ)
    (results : UpdateResults) (p : String × AttributionResult) :
    UpdateResults :=
  let clusterId := p.1
      let attribution := p.2
      if attribution.confidence < confidenceThreshold then
        { results with skipped := results.skipped ++
            [{ clusterId := clusterId, entityId := none,
               reason := "low_confidence",
               confidence := some attribution.confidence,
               addressCount := none, errorMessage := none }] }
      else
        match attribution.entityId with
        | some entityId =>
          match store.getEntityById entityId with
          | .error m =>
            { results with skipped := results.skipped ++
                [{ clusterId := clusterId, entityId := some entityId,
                   reason := "update_error", confidence := none,
                   addressCount := none, errorMessage := some m }] }
          | .ok entity =>
            let newAddresses := attribution.addresses.filter
              (fun addr => ! entity.addresses.contains addr)
            if newAddresses.length = 0 then
              { results with skipped := results.skipped ++
                  [{ clusterId := clusterId, entityId := some entityId,
                     reason := "no_new_addresses", confidence := none,
                     addressCount := none, errorMessage := none }] }
            else
              match store.updateEntity entityId (entity.addresses ++ newAddresses) with
              | .error m =>
                { results with skipped := results.skipped ++
                    [{ clusterId := clusterId, entityId := some entityId,
                       reason := "update_error", confidence := none,
                       addressCount := none, errorMessage := some m }] }
              | .ok updatedEntity =>
                { results with updated := results.updated ++
                    [{ clusterId := clusterId, entityId := entityId,
                       entityName := updatedEntity.name,
                       addressesAdded := newAddresses }] }
        | none =>
          if attribution.addresses.length ≥ 3 then
            match store.createEntity
              { name := "Cluster " ++ clusterId, type := "Unknown",
                description := "Automatically identified address cluster",
                addresses := attribution.addresses, confidenceScore := 3/5 } with
            | .error m =>
              { results with skipped := results.skipped ++
                  [{ clusterId := clusterId, entityId := none,
                     reason := "creation_error", confidence := none,
                     addressCount := none, errorMessage := some m }] }
            | .ok newEntity =>
              { results with created := results.created ++
                  [{ clusterId := clusterId, entityId := newEntity.id,
                     entityName := newEntity.name,
                     addressCount := attribution.addresses.length }] }
          else
            { results with skipped := results.skipped ++
                [{ clusterId := clusterId, entityId := none,
                   reason := "small_unattributed_cluster", confidence := none,
                   addressCount := some attribution.addresses.length,
                   errorMessage := none }] }

/-- updateEntitiesWithAttributions; the source's confidenceThreshold
defaults to 0.8 at the call sites modelled here. No branch of the per
cluster processing can throw, so the function always returns. -/
def updateEntitiesWithAttributions (store : EntityStore)
    (attributionResults : List (String × AttributionResult))
    (confidenceThreshold : ℚ) : UpdateResults :=
  attributionResults.foldl (updateStep store confidenceThreshold)
    { updated := [], created := [], skipped := [] }

/-! Identification orchestrator. -/

structure IdentifyOptions where
  performAnalysis : Option Bool
deriving Repr, DecidableEq

structure EntityInfo where
  address : String
  entityId : Option String
  entityName : String
  entityType : String
  confidence : ℚ
  method : String
  analysisPerformed : Bool
deriving Repr, DecidableEq

/-- identifyAddressEntity: existing store entry, else (when analysis is not
disabled) attribution analysis over an empty placeholder transaction list,
else an Unknown record. -/
def identifyAddressEntity (store : EntityStore) (address : String)
    (options : IdentifyOptions) : Except String EntityInfo :=
  let core : Except String EntityInfo := do
    let knownEntity ← store.findEntityForAddress address
    match knownEntity with
    | some e =>
      pure
        { address := address, entityId := some e.id, entityName := e.name,
          entityType := e.type, confidence := e.confidenceScore,
          method := "existing_entry", analysisPerformed := false }
    | none =>
      if options.performAnalysis ≠ some false then do
        let transactions : List Transaction := []
        let attribution ← attributeAddress store address transactions
        pure
          { address := address, entityId := attribution.entityId,
            entityName := attribution.entityName,
            entityType := attribution.entityType,
            confidence := attribution.confidence,
            method := attribution.attributionMethod,
            analysisPerformed := true }
      else
        pure
          { address := address, entityId := none, entityName := "Unknown",
            entityType := "Unknown", confidence := 0, method := "none",
            analysisPerformed := false }
  match core with
  | .ok v => .ok v
  | .error m => .error ("Address entity identification failed: " ++ m)

/-- extractUniqueAddresses: from, to, input and output addresses of every
transaction, deduplicated in first-seen order; absent string fields are the
empty string, which is falsy and skipped. -/
def extractUniqueAddresses (transactions : List Transaction) : List String :=
  transactions.foldl
    (fun s tx =>
      let s := if tx.sender ≠ "" then setAdd s tx.sender else s
      let s := if tx.receiver ≠ "" then setAdd s tx.receiver else s
      let s := match tx.inputs with
        | some l => l.foldl (fun s a => if a ≠ "" then setAdd s a else s) s
        | none => s
      match tx.outputs with
      | some l => l.foldl (fun s a => if a ≠ "" then setAdd s a else s) s
      | none => s)
    []

structure IdentifyBatchOptions where
  updateEntities : Option Bool
  confidenceThreshold : Option ℚ
deriving Repr, DecidableEq

structure IdentificationResult where
  transactionCount : Nat
  addressCount : Nat
  clusterCount : Nat
  clusters : List (String × List String)
  attributions : List (String × AttributionResult)
  updates : Option UpdateResults
deriving Repr, DecidableEq

/-- identifyEntitiesFromTransactions: extract addresses, cluster, attribute,
and (unless updateEntities is exactly false) run the entity-store update
step; a zero confidenceThreshold is falsy in the source and falls back to
the default 0.8. -/
def identifyEntitiesFromTransactions (store : EntityStore)
    (transactions : List Transaction) (options : IdentifyBatchOptions) :
    Except String IdentificationResult :=
  let core : Except String IdentificationResult := do
    let addresses := extractUniqueAddresses transactions
    let clusters ← combinedClustering transactions addresses
    let attributionResults ← attributeClusters store clusters
    let shouldUpdateEntities := options.updateEntities ≠ some false
    let updateResults :=
      if shouldUpdateEntities then
        let confidenceThreshold :=
          match options.confidenceThreshold with
          | some t => if t = 0 then 4/5 else t
          | none => 4/5
        some (updateEntitiesWithAttributions store attributionResults
          confidenceThreshold)
      else none
    pure
      { transactionCount := transactions.length,
        addressCount := addresses.length, clusterCount := clusters.length,
        clusters := clusters, attributions := attributionResults,
        updates := updateResults }
  match core with
  | .ok v => .ok v
  | .error m => .error ("Entity identification failed: " ++ m)

/-! Risk scoring service. Date.now() is modelled as an explicit now
parameter (epoch milliseconds); transaction history is the source's empty
placeholder list. -/

structure RiskFactor where
  ftype : String
  score : ℚ
  description : String
deriving Repr, DecidableEq

def hasMixerInteractions (_address : String)
    (_transactions : List Transaction) : Bool := false

def hasDarknetInteractions (_address : String)
    (_transactions : List Transaction) : Bool := false

def hasUnusualActivityPattern (_address : String)
    (_transactions : List Transaction) : Bool := false

def hasHighValueTransfers (_address : String)
    (_transactions : List Transaction) : Bool := false

def hasRapidFundMovement (_address : String)
    (_transactions : List Transaction) : Bool := false

def hasManyHops (_address : String)
    (_transactions : List Transaction) : Bool := false

/-- isNewAddress: true on an empty history, otherwise true when the earliest
transaction is less than 30 days old. -/
def isNewAddress (transactions : List Transaction) (now : ℚ) : Bool :=
  if transactions.length = 0 then true
  else
    let firstTx := transactions.foldl
      (fun (earliest : Option ℚ) tx =>
        match earliest with
        | none => some (tx.timestamp : ℚ)
        | some e => if (tx.timestamp : ℚ) < e then some (tx.timestamp : ℚ) else some e)
      none
    match firstTx with
    | none => true
    | some f => (now - f) / (1000 * 60 * 60 * 24) < 30

def isLowTransparencyEntity (entityInfo : EntityInfo) : Bool :=
  entityInfo.entityType = "Unknown" || entityInfo.confidence < 3/10

/-- detectRiskFactors: the fixed factor catalogue in source order, with the
RISK_WEIGHTS scores. -/
def detectRiskFactors (address : String) (transactions : List Transaction)
    (entityInfo : EntityInfo) (now : ℚ) : List RiskFactor :=
  (if entityInfo.entityType = "Mixer" || hasMixerInteractions address transactions then
    [{ ftype := "mixerInteraction", score := 8/10,
       description := "Interaction with cryptocurrency mixing services detected" }]
  else []) ++
  (if entityInfo.entityType = "Sanctioned" then
    [{ ftype := "sanctionedEntity", score := 9/10,
       description := "Address belongs to a sanctioned entity" }]
  else []) ++
  (if entityInfo.entityType = "DarknetMarket" || hasDarknetInteractions address transactions then
    [{ ftype := "darknetInteraction", score := 7/10,
       description := "Interaction with darknet markets detected" }]
  else []) ++
  (if entityInfo.entityType = "HighRiskExchange" then
    [{ ftype := "highRiskExchange", score := 6/10,
       description := "Address belongs to a high-risk exchange with weak KYC" }]
  else []) ++
  (if hasUnusualActivityPattern address transactions then
    [{ ftype := "unusualActivityPattern", score := 5/10,
       description := "Unusual transaction patterns detected" }]
  else []) ++
  (if isNewAddress transactions now then
    [{ ftype := "newAddress", score := 4/10,
       description := "Recently created address with limited history" }]
  else []) ++
  (if hasHighValueTransfers address transactions then
    [{ ftype := "highValueTransfers", score := 5/10,
       description := "High-value transfers detected" }]
  else []) ++
  (if hasRapidFundMovement address transactions then
    [{ ftype := "rapidFundMovement", score := 6/10,
       description := "Rapid movement of funds through multiple addresses" }]
  else []) ++
  (if hasManyHops address transactions then
    [{ ftype := "manyHops", score := 4/10,
       description := "Funds moving through many hops in short timeframe" }]
  else []) ++
  (if isLowTransparencyEntity entityInfo then
    [{ ftype := "lowTransparencyEntity", score := 5/10,
       description := "Associated with entity having low transparency" }]
  else [])

/-- Entity type risk table. -/
def ENTITY_TYPE_RISK : List (String × ℚ) :=
  [("Mixer", 9/10), ("DarknetMarket", 9/10), ("Sanctioned", 1),
   ("HighRiskExchange", 7/10), ("Exchange", 2/10), ("DeFi Protocol", 3/10),
   ("Token", 2/10), ("Wallet", 2/10), ("Unknown", 5/10)]

/-- Stable insertion into a list sorted by descending score. -/
def insertByScoreDesc (x : RiskFactor) : List RiskFactor → List RiskFactor
  | [] => [x]
  | y :: t => if x.score > y.score then x :: y :: t else y :: insertByScoreDesc x t

/-- Stable sort by descending score (the source's Array.sort with
comparator b.score - a.score). -/
def sortByScoreDesc (l : List RiskFactor) : List RiskFactor :=
  l.foldl (fun acc x => insertByScoreDesc x acc) []

structure RiskDetails where
  score : ℚ
  significantFactors : List RiskFactor
deriving Repr, DecidableEq

/-- calculateRiskScore: entity base capped at 0.7, then the normalized
factor score folded in with diminishing returns and a 0.95 cap. -/
def calculateRiskScore (riskFactors : List RiskFactor)
    (entityInfo : EntityInfo) : RiskDetails :=
  let entityTypeRisk :=
    if entityInfo.entityType = "" then 1/2
    else
      match ENTITY_TYPE_RISK.find? (fun p => p.1 = entityInfo.entityType) with
      | some p => p.2
      | none => 1/2
  let score0 := min (7/10) (entityTypeRisk * entityInfo.confidence)
  let factorCount := riskFactors.length
  let factorScore := (riskFactors.map (fun f => f.score)).sum
  let maxFactorScore := riskFactors.foldl
    (fun m f => if f.score > m then f.score else m) 0
  let normalizedFactorScore :=
    if factorCount > 0 then
      (factorScore / (factorCount : ℚ)) * (7/10) + maxFactorScore * (3/10)
    else 0
  let score1 := score0 + (1 - score0) * normalizedFactorScore
  { score := min (19/20) score1,
    significantFactors := sortByScoreDesc riskFactors }

/-- riskLevelFromScore thresholds. -/
def riskLevelFromScore (score : ℚ) : String :=
  if score ≥ 8/10 then "Very High"
  else if score ≥ 6/10 then "High"
  else if score ≥ 4/10 then "Medium"
  else if score ≥ 2/10 then "Low"
  else "Very Low"

structure RiskAssessment where
  address : String
  entityId : Option String
  entityName : String
  entityType : String
  riskScore : ℚ
  riskLevel : String
  riskFactors : List RiskFactor
  transactionCount : Nat
deriving Repr, DecidableEq

/-- Fallback entity info after a failed identification; the source's catch
builds only the four entity fields, the remaining fields here are unread. -/
def unknownEntityInfo (address : String) : EntityInfo :=
  { address := address, entityId := none, entityName := "Unknown",
    entityType := "Unknown", confidence := 0, method := "",
    analysisPerformed := false }

/-- calculateAddressRisk: resolve the entity (degrading to Unknown on
failure), detect risk factors over the placeholder empty history, and
compose the score; nothing after the guarded identification step can throw,
so the function is total. -/
def calculateAddressRisk (store : EntityStore) (address : String) (now : ℚ) :
    RiskAssessment :=
  let entityInfo :=
    match identifyAddressEntity store address { performAnalysis := some true } with
    | .ok info => info
    | .error _ => unknownEntityInfo address
  let transactions : List Transaction := []
  let riskFactors := detectRiskFactors address transactions entityInfo now
  let riskDetails := calculateRiskScore riskFactors entityInfo
  { address := address, entityId := entityInfo.entityId,
    entityName := entityInfo.entityName, entityType := entityInfo.entityType,
    riskScore := riskDetails.score,
    riskLevel := riskLevelFromScore riskDetails.score,
    riskFactors := riskDetails.significantFactors,
    transactionCount := transactions.length }

/-! Pattern detection service (activity-timing detector and the shared
confidence formula). -/

/-- calculateConfidence(patternStrength, sampleSize): sample-size factor
maxing out at 20 data points, strength factor at 10, capped at 0.95. -/
def calculateConfidence (patternStrength sampleSize : ℚ) : ℚ :=
  let sizeFactor := min 1 (sampleSize / 20)
  let strengthFactor := min 1 (patternStrength / 10)
  min (19/20) (sizeFactor * (6/10) + strengthFactor * (4/10))

/-- getUTCHours of an epoch-millisecond timestamp. -/
def hourOfTimestamp (ts : Nat) : Nat := ts / 3600000 % 24

/-- getUTCDay of an epoch-millisecond timestamp (epoch day 0 was a
Thursday, day index 4). -/
def dayOfTimestamp (ts : Nat) : Nat := (ts / 86400000 + 4) % 7

def dayNames : List String :=
  ["Sunday", "Monday", "Tuesday", "Wednesday", "Thursday", "Friday", "Saturday"]

structure TimingPattern where
  key : String
  items : List String
  description : String
  confidence : ℚ
deriving Repr, DecidableEq

/-- detectActivityTimingPatterns. The source flags an hour bin when its
normalized value exceeds mean + 2 standard deviations (1.5 for day bins);
over the nonnegative reals that comparison is equivalent to the pair of
rational comparisons value > mean and (value - mean)^2 > k^2 * variance,
which is the form used here so that everything stays in ℚ. -/
def detectActivityTimingPatterns (_address : String)
    (transactions : List Transaction) : List TimingPattern :=
  let totalTx : ℚ := (transactions.length : ℚ)
  let hourDistribution := (List.range 24).map
    (fun h => ((transactions.countP (fun tx => hourOfTimestamp tx.timestamp = h)) : ℚ))
  let normalizedHourDist := hourDistribution.map (fun c => c / totalTx)
  let hourMean := normalizedHourDist.sum / 24
  let hourVariance :=
    (normalizedHourDist.map (fun v => (v - hourMean) ^ 2)).sum / 24
  let peakHours := (List.range 24).filter
    (fun h =>
      let v := normalizedHourDist.getD h 0
      decide (v > hourMean) && decide ((v - hourMean) ^ 2 > 4 * hourVariance))
  let dayDistribution := (List.range 7).map
    (fun d => ((transactions.countP (fun tx => dayOfTimestamp tx.timestamp = d)) : ℚ))
  let normalizedDayDist := dayDistribution.map (fun c => c / totalTx)
  let dayMean := normalizedDayDist.sum / 7
  let dayVariance :=
    (normalizedDayDist.map (fun v => (v - dayMean) ^ 2)).sum / 7
  let activeDays := ((List.range 7).filter
    (fun d =>
      let v := normalizedDayDist.getD d 0
      decide (v > dayMean) && decide ((v - dayMean) ^ 2 > (9/4) * dayVariance))).map
    (fun d => dayNames.getD d "")
  (if peakHours.length > 0 then
    [{ key := "peakHours", items := peakHours.map Nat.repr,
       description := "Activity concentrated during hours: " ++
         String.intercalate ", " (peakHours.map Nat.repr),
       confidence := calculateConfidence (peakHours.length : ℚ) totalTx }]
  else []) ++
  (if activeDays.length > 0 then
    [{ key := "activeDays", items := activeDays,
       description := "Activity concentrated on days: " ++
         String.intercalate ", " activeDays,
       confidence := calculateConfidence (activeDays.length : ℚ) totalTx }]
  else [])

/-! Concrete entity stores used by witnesses and counterexamples. -/

/-- The Binance entity of the demo entity list (id 1, confidence 0.95). -/
def binance : Entity :=
  { id := "1", name := "Binance", type := "Exchange",
    description := "Major cryptocurrency exchange",
    addresses := ["0x3f5CE5FBFe3E9af3971dD833D26bA9b5C936f0bE",
                  "0xD551234Ae421e3BCBA99A0Da6d736074f22192FF"],
    confidenceScore := 95/100 }

/-- A store holding only the Binance entity, indexed by its addresses. -/
def binanceStore : EntityStore :=
  { getEntities := .ok [binance],
    findEntityForAddress := fun a =>
      .ok (if binance.addresses.contains a then some binance else none),
    getEntityById := fun i =>
      if i = "1" then .ok binance else .error "Entity not found",
    createEntity := fun ne =>
      .ok { id := "9", name := ne.name, type := ne.type,
            description := ne.description, addresses := ne.addresses,
            confidenceScore := ne.confidenceScore },
    updateEntity := fun _ addrs => .ok { binance with addresses := addrs } }

/-- An empty store: every lookup misses, mutations echo their input. -/
def unknownStore : EntityStore :=
  { getEntities := .ok [],
    findEntityForAddress := fun _ => .ok none,
    getEntityById := fun _ => .error "Entity not found",
    createEntity := fun ne =>
      .ok { id := "n1", name := ne.name, type := ne.type,
            description := ne.description, addresses := ne.addresses,
            confidenceScore := ne.confidenceScore },
    updateEntity := fun _ _ => .error "Entity not found" }

/-- A store whose by-address lookup always fails. -/
def failingLookupStore : EntityStore :=
  { getEntities := .ok [],
    findEntityForAddress := fun _ => .error "boom",
    getEntityById := fun _ => .error "boom",
    createEntity := fun _ => .error "boom",
    updateEntity := fun _ _ => .error "boom" }

/-- C4 (confirmed): a cluster of three distinct addresses of which exactly
one is a Binance address and the other two are unknown is attributed to
entity 1 (Binance) with confidence 0.3·(1/3) + 0.4·0.95 + 0.3·1 = 0.78. -/
theorem attributeClusters_binance_scenario (store : EntityStore)
    (cid x y z a₀ : String) (es : List Entity)
    (hg : store.getEntities = .ok es)
    (hnd : ([x, y, z] : List String).Nodup)
    (ha₀ : a₀ ∈ ([x, y, z] : List String))
    (hfind : store.findEntityForAddress a₀ = .ok (some binance))
    (hother : ∀ a ∈ ([x, y, z] : List String), a ≠ a₀ →
      store.findEntityForAddress a = .ok none) :
    attributeClusters store [(cid, [x, y, z])] =
      .ok [(cid,
        { entityId := some "1", entityName := "Binance",
          entityType := "Exchange", confidence := 39/50,
          addresses := [x, y, z], matchedAddresses := [a₀] })] := by
  have hxy : ¬ x = y := by intro he; subst he; simp at hnd
  have hxz : ¬ x = z := by intro he; subst he; simp at hnd
  have hyz : ¬ y = z := by intro he; subst he; simp at hnd
  rcases (show a₀ = x ∨ a₀ = y ∨ a₀ = z by simpa using ha₀) with rfl | rfl | rfl
  · have hy : store.findEntityForAddress y = .ok none :=
      hother y (by simp) (fun he => hxy he.symm)
    have hz : store.findEntityForAddress z = .ok none :=
      hother z (by simp) (fun he => hxz he.symm)
    simp only [attributeClusters, List.foldlM_cons, List.foldlM_nil, hg,
      hfind, hy, hz, Bind.bind, Except.bind]
    simp [pure, Except.pure, calculateConsensusAttribution, groupHits,
      groupStep, bestGroup, bestStep, mkHit, binance, setOfList, setAdd,
      min_def]
    norm_num
  · have hx : store.findEntityForAddress x = .ok none :=
      hother x (by simp) hxy
    have hz : store.findEntityForAddress z = .ok none :=
      hother z (by simp) (fun he => hyz he.symm)
    simp only [attributeClusters, List.foldlM_cons, List.foldlM_nil, hg,
      hfind, hx, hz, Bind.bind, Except.bind]
    simp [pure, Except.pure, calculateConsensusAttribution, groupHits,
      groupStep, bestGroup, bestStep, mkHit, binance, setOfList, setAdd,
      min_def]
    norm_num
  · have hx : store.findEntityForAddress x = .ok none :=
      hother x (by simp) hxz
    have hy : store.findEntityForAddress y = .ok none :=
      hother y (by simp) hyz
    simp only [attributeClusters, List.foldlM_cons, List.foldlM_nil, hg,
      hfind, hx, hy, Bind.bind, Except.bind]
    simp [pure, Except.pure, calculateConsensusAttribution, groupHits,
      groupStep, bestGroup, bestStep, mkHit, binance, setOfList, setAdd,
      min_def]
    norm_num

theorem attributeClusters_binance_scenario_witness :
    attributeClusters binanceStore
      [("c1", ["0x3f5CE5FBFe3E9af3971dD833D26bA9b5C936f0bE", "u1", "u2"])] =
      .ok [("c1",
        { entityId := some "1", entityName := "Binance",
          entityType := "Exchange", confidence := 39/50,
          addresses := ["0x3f5CE5FBFe3E9af3971dD833D26bA9b5C936f0bE", "u1", "u2"],
          matchedAddresses := ["0x3f5CE5FBFe3E9af3971dD833D26bA9b5C936f0bE"] })] :=
  attributeClusters_binance_scenario binanceStore "c1"
    "0x3f5CE5FBFe3E9af3971dD833D26bA9b5C936f0bE" "u1" "u2"
    "0x3f5CE5FBFe3E9af3971dD833D26bA9b5C936f0bE" [binance] rfl (by decide)
    (by decide) rfl
    (by
      intro a ha hne
      simp only [List.mem_cons, List.not_mem_nil, or_false] at ha
      rcases ha with rfl | rfl | rfl
      · exact absurd rfl hne
      · rfl
      · rfl)

/-- C5 (amended): for an address whose entity resolution yields entityType
Unknown with confidence 0, the risk pipeline detects two factors over the
placeholder empty history — newAddress (0.4, empty history counts as new)
and lowTransparencyEntity (0.5, Unknown entity type) — so the entity base is
0, the normalized factor score is 0.45·0.7 + 0.5·0.3 = 0.465, the final
riskScore is 0.465 and the riskLevel is Medium. -/
theorem calculateAddressRisk_unknown_scenario (store : EntityStore)
    (address : String) (now : ℚ) (info : EntityInfo)
    (hid : identifyAddressEntity store address { performAnalysis := some true } =
      .ok info)
    (htype : info.entityType = "Unknown") (hconf : info.confidence = 0) :
    (calculateAddressRisk store address now).riskScore = 93/200 ∧
    (calculateAddressRisk store address now).riskLevel = "Medium" ∧
    (calculateAddressRisk store address now).riskFactors =
      [{ ftype := "lowTransparencyEntity", score := 1/2,
         description := "Associated with entity having low transparency" },
       { ftype := "newAddress", score := 2/5,
         description := "Recently created address with limited history" }] := by
  unfold calculateAddressRisk
  rw [hid]
  simp only [detectRiskFactors, isNewAddress, isLowTransparencyEntity, htype,
    hconf, hasMixerInteractions, hasDarknetInteractions,
    hasUnusualActivityPattern, hasHighValueTransfers, hasRapidFundMovement,
    hasManyHops]
  norm_num +decide [calculateRiskScore, ENTITY_TYPE_RISK, htype, hconf,
    sortByScoreDesc, insertByScoreDesc, riskLevelFromScore, min_def]

/-- C5 counterexample: on the empty store the entity resolution yields
Unknown with confidence 0, yet the risk score is 0.465 and the level is
Medium, not 0 and Very Low as the claim states. -/
theorem calculateAddressRisk_unknown_cex :
    (calculateAddressRisk unknownStore "addr1" 0).riskScore = 93/200 ∧
    (calculateAddressRisk unknownStore "addr1" 0).riskLevel = "Medium" ∧
    ¬ ((calculateAddressRisk unknownStore "addr1" 0).riskScore = 0 ∧
       (calculateAddressRisk unknownStore "addr1" 0).riskLevel = "Very Low") := by
  have hid : identifyAddressEntity unknownStore "addr1"
      { performAnalysis := some true } =
      .ok { address := "addr1", entityId := none, entityName := "Unknown",
            entityType := "Unknown", confidence := 0, method := "none",
            analysisPerformed := true } := rfl
  unfold calculateAddressRisk
  rw [hid]
  simp only [detectRiskFactors, isNewAddress, isLowTransparencyEntity,
    hasMixerInteractions, hasDarknetInteractions, hasUnusualActivityPattern,
    hasHighValueTransfers, hasRapidFundMovement, hasManyHops]
  norm_num +decide [calculateRiskScore, ENTITY_TYPE_RISK, sortByScoreDesc,
    insertByScoreDesc, riskLevelFromScore, min_def]

theorem calculateAddressRisk_unknown_scenario_witness :
    (calculateAddressRisk unknownStore "addr1" 0).riskScore = 93/200 ∧
    (calculateAddressRisk unknownStore "addr1" 0).riskLevel = "Medium" :=
  ⟨(calculateAddressRisk_unknown_scenario unknownStore "addr1" 0
      { address := "addr1", entityId := none, entityName := "Unknown",
        entityType := "Unknown", confidence := 0, method := "none",
        analysisPerformed := true } rfl rfl rfl).1,
    (calculateAddressRisk_unknown_scenario unknownStore "addr1" 0
      { address := "addr1", entityId := none, entityName := "Unknown",
        entityType := "Unknown", confidence := 0, method := "none",
        analysisPerformed := true } rfl rfl rfl).2.1⟩

/-! Claim C7: dispatch behaviour of the entity-store update step. -/

/-- The skipped entry recorded for a below-threshold attribution. -/
def lowConfidenceSkip (p : String × AttributionResult) : UpdateSkipEntry :=
  { clusterId := p.1, entityId := none, reason := "low_confidence",
    confidence := some p.2.confidence, addressCount := none,
    errorMessage := none }

/-- The skipped entry recorded for a small unattributed cluster. -/
def smallClusterSkip (p : String × AttributionResult) : UpdateSkipEntry :=
  { clusterId := p.1, entityId := none,
    reason := "small_unattributed_cluster", confidence := none,
    addressCount := some p.2.addresses.length, errorMessage := none }

/-- The creation payload proposed for an unattributed cluster: named after
the cluster id, with default confidence 0.6. -/
def newClusterEntitySpec (p : String × AttributionResult) : EntityNew :=
  { name := "Cluster " ++ p.1, type := "Unknown",
    description := "Automatically identified address cluster",
    addresses := p.2.addresses, confidenceScore := 3/5 }

/-- The created entry recorded when the store (modelled by g) accepts the
creation payload. -/
def createdEntryFor (g : EntityNew → Entity) (p : String × AttributionResult) :
    UpdateCreatedEntry :=
  { clusterId := p.1, entityId := (g (newClusterEntitySpec p)).id,
    entityName := (g (newClusterEntitySpec p)).name,
    addressCount := p.2.addresses.length }

theorem updateStep_mono (store : EntityStore) (t : ℚ) (results : UpdateResults)
    (p : String × AttributionResult) :
    (∀ e ∈ results.updated, e ∈ (updateStep store t results p).updated) ∧
    (∀ e ∈ results.created, e ∈ (updateStep store t results p).created) ∧
    (∀ e ∈ results.skipped, e ∈ (updateStep store t results p).skipped) := by
  refine ⟨fun e he => ?_, fun e he => ?_, fun e he => ?_⟩
  all_goals
    simp only [updateStep]
    split
    · simp [he]
    · split
      · split
        · simp [he]
        · split
          · simp [he]
          · split
            · simp [he]
            · simp [he]
      · split
        · split
          · simp [he]
          · simp [he]
        · simp [he]

theorem updateFold_mono (store : EntityStore) (t : ℚ) :
    ∀ (l : List (String × AttributionResult)) (acc : UpdateResults),
    (∀ e ∈ acc.updated, e ∈ (l.foldl (updateStep store t) acc).updated) ∧
    (∀ e ∈ acc.created, e ∈ (l.foldl (updateStep store t) acc).created) ∧
    (∀ e ∈ acc.skipped, e ∈ (l.foldl (updateStep store t) acc).skipped) := by
  intro l
  induction l with
  | nil => exact fun acc => ⟨fun e he => he, fun e he => he, fun e he => he⟩
  | cons a l ih =>
    intro acc
    refine ⟨?_, ?_, ?_⟩
    · intro e he
      exact (ih (updateStep store t acc a)).1 e
        ((updateStep_mono store t acc a).1 e he)
    · intro e he
      exact (ih (updateStep store t acc a)).2.1 e
        ((updateStep_mono store t acc a).2.1 e he)
    · intro e he
      exact (ih (updateStep store t acc a)).2.2 e
        ((updateStep_mono store t acc a).2.2 e he)

/-- C7 (amended): with the default threshold 0.8, every attribution below
the threshold — attributed or not — is recorded as skipped with reason
low_confidence; an attribution at or above the threshold with no entity id
is recorded as created (with a payload named Cluster followed by the
cluster id and confidenceScore 0.6) when it has at least 3 addresses and
the store accepts the creation, and as skipped with reason
small_unattributed_cluster when it has fewer than 3. The claim's creation
rule omits the threshold condition: a below-threshold unattributed cluster
is skipped, never created. -/
theorem updateEntities_dispatch (store : EntityStore) (g : EntityNew → Entity)
    (hcreate : ∀ ne, store.createEntity ne = .ok (g ne))
    (results : List (String × AttributionResult))
    (p : String × AttributionResult) (hp : p ∈ results) :
    (p.2.confidence < 4/5 →
      lowConfidenceSkip p ∈
        (updateEntitiesWithAttributions store results (4/5)).skipped) ∧
    (4/5 ≤ p.2.confidence → p.2.entityId = none → 3 ≤ p.2.addresses.length →
      createdEntryFor g p ∈
        (updateEntitiesWithAttributions store results (4/5)).created) ∧
    (4/5 ≤ p.2.confidence → p.2.entityId = none → p.2.addresses.length < 3 →
      smallClusterSkip p ∈
        (updateEntitiesWithAttributions store results (4/5)).skipped) := by
  unfold updateEntitiesWithAttributions
  have main : ∀ (l : List (String × AttributionResult)) (acc : UpdateResults),
      p ∈ l →
      (p.2.confidence < 4/5 →
        lowConfidenceSkip p ∈ (l.foldl (updateStep store (4/5)) acc).skipped) ∧
      (4/5 ≤ p.2.confidence → p.2.entityId = none → 3 ≤ p.2.addresses.length →
        createdEntryFor g p ∈ (l.foldl (updateStep store (4/5)) acc).created) ∧
      (4/5 ≤ p.2.confidence → p.2.entityId = none → p.2.addresses.length < 3 →
        smallClusterSkip p ∈ (l.foldl (updateStep store (4/5)) acc).skipped) := by
    intro l
    induction l with
    | nil => intro acc hp2; simp at hp2
    | cons a l ih =>
      intro acc hp2
      rcases List.mem_cons.1 hp2 with rfl | hp2
      · refine ⟨?_, ?_, ?_⟩
        · intro hc
          apply (updateFold_mono store (4/5) l (updateStep store (4/5) acc p)).2.2
          unfold updateStep
          rw [if_pos hc]
          simp [lowConfidenceSkip]
        · intro hc hid hlen
          apply (updateFold_mono store (4/5) l (updateStep store (4/5) acc p)).2.1
          unfold updateStep
          rw [if_neg (not_lt.2 hc), hid]
          simp only
          rw [if_pos hlen]
          rw [hcreate]
          simp [createdEntryFor, newClusterEntitySpec]
        · intro hc hid hlen
          apply (updateFold_mono store (4/5) l (updateStep store (4/5) acc p)).2.2
          unfold updateStep
          rw [if_neg (not_lt.2 hc), hid]
          simp only
          rw [if_neg (by omega)]
          simp [smallClusterSkip]
      · exact ih (updateStep store (4/5) acc a) hp2
  exact main results _ hp

/-- C7 counterexample: an attribution map with one unattributed cluster of
three addresses and confidence 0 produces no creation at all with the
default threshold 0.8 — it is skipped as low_confidence — refuting the
claim that every unattributed attribution with at least 3 addresses leads
to a proposed entity. -/
theorem updateEntities_low_confidence_cex :
    updateEntitiesWithAttributions unknownStore
      [("c1", { entityId := none, entityName := "Unknown",
                entityType := "Unknown", confidence := 0,
                addresses := ["a", "b", "c"], matchedAddresses := [] })]
      (4/5) =
      { updated := [], created := [],
        skipped := [{ clusterId := "c1", entityId := none,
                      reason := "low_confidence", confidence := some 0,
                      addressCount := none, errorMessage := none }] } := by
  norm_num [updateEntitiesWithAttributions, updateStep]

/-- Echo of the creation payload used by the witness store. -/
def gEcho : EntityNew → Entity := fun ne =>
  { id := "n1", name := ne.name, type := ne.type,
    description := ne.description, addresses := ne.addresses,
    confidenceScore := ne.confidenceScore }

def pLow : String × AttributionResult :=
  ("c1", { entityId := none, entityName := "Unknown",
           entityType := "Unknown", confidence := 0,
           addresses := ["a", "b", "c"], matchedAddresses := [] })

def pBig : String × AttributionResult :=
  ("c2", { entityId := none, entityName := "Unknown",
           entityType := "Unknown", confidence := 9/10,
           addresses := ["d", "e", "f"], matchedAddresses := [] })

def pSmall : String × AttributionResult :=
  ("c3", { entityId := none, entityName := "Unknown",
           entityType := "Unknown", confidence := 9/10,
           addresses := ["g"], matchedAddresses := [] })

theorem updateEntities_dispatch_witness :
    lowConfidenceSkip pLow ∈
      (updateEntitiesWithAttributions unknownStore [pLow, pBig, pSmall] (4/5)).skipped ∧
    createdEntryFor gEcho pBig ∈
      (updateEntitiesWithAttributions unknownStore [pLow, pBig, pSmall] (4/5)).created ∧
    smallClusterSkip pSmall ∈
      (updateEntitiesWithAttributions unknownStore [pLow, pBig, pSmall] (4/5)).skipped :=
  ⟨(updateEntities_dispatch unknownStore gEcho (fun _ => rfl)
      [pLow, pBig, pSmall] pLow (by simp)).1 (by norm_num [pLow]),
    (updateEntities_dispatch unknownStore gEcho (fun _ => rfl)
      [pLow, pBig, pSmall] pBig (by simp)).2.1 (by norm_num [pBig]) rfl
      (by norm_num [pBig]),
    (updateEntities_dispatch unknownStore gEcho (fun _ => rfl)
      [pLow, pBig, pSmall] pSmall (by simp)).2.2 (by norm_num [pSmall]) rfl
      (by norm_num [pSmall])⟩

/-! Claim C8: degradation on lookup failure. -/

/-- C8 counterexample: attributeClusters does not degrade a per-address
lookup failure — the failing lookup aborts the whole run as a wrapped
Cluster attribution failed error. -/
theorem attributeClusters_lookup_error_cex :
    attributeClusters failingLookupStore [("c1", ["a"])] =
      .error "Cluster attribution failed: boom" := rfl

/-- C8 (amended): calculateAddressRisk degrades an entity-identification
failure to the Unknown entity (entityId null, confidence 0 in the fallback
record) and still returns a RiskAssessment, but attributeClusters
propagates a per-address lookup failure as an error for the whole run. -/
theorem risk_degrades_but_attributeClusters_propagates :
    (∀ (store : EntityStore) (address : String) (now : ℚ) (m : String),
      identifyAddressEntity store address { performAnalysis := some true } =
        .error m →
      (calculateAddressRisk store address now).entityId = none ∧
      (calculateAddressRisk store address now).entityName = "Unknown" ∧
      (calculateAddressRisk store address now).entityType = "Unknown") ∧
    (∀ (cid a msg : String) (store : EntityStore) (es : List Entity),
      store.getEntities = .ok es →
      store.findEntityForAddress a = .error msg →
      attributeClusters store [(cid, [a])] =
        .error ("Cluster attribution failed: " ++ msg)) := by
  constructor
  · intro store address now m hid
    unfold calculateAddressRisk
    rw [hid]
    exact ⟨rfl, rfl, rfl⟩
  · intro cid a msg store es hg hf
    simp only [attributeClusters, List.foldlM_cons, List.foldlM_nil, hg, hf,
      Bind.bind, Except.bind]

theorem risk_degrades_witness :
    (calculateAddressRisk failingLookupStore "a" 0).entityId = none ∧
    (calculateAddressRisk failingLookupStore "a" 0).entityName = "Unknown" ∧
    (calculateAddressRisk failingLookupStore "a" 0).entityType = "Unknown" ∧
    attributeClusters failingLookupStore [("c1", ["a"])] =
      .error "Cluster attribution failed: boom" :=
  ⟨(risk_degrades_but_attributeClusters_propagates.1 failingLookupStore "a" 0
      "Address entity identification failed: boom" rfl).1,
    (risk_degrades_but_attributeClusters_propagates.1 failingLookupStore "a" 0
      "Address entity identification failed: boom" rfl).2.1,
    (risk_degrades_but_attributeClusters_propagates.1 failingLookupStore "a" 0
      "Address entity identification failed: boom" rfl).2.2,
    risk_degrades_but_attributeClusters_propagates.2 "c1" "a" "boom"
      failingLookupStore [] rfl rfl⟩

/-! Claim C10: the updates field dichotomy of the orchestrator. -/

/-- Transaction with two novel outputs: the clustering pipeline leaves at
least two residual unclustered addresses and therefore hits the behavioral
clustering ReferenceError. -/
def cexT10 : Transaction :=
  { hash := "h1", timestamp := 0, sender := "a", receiver := "", value := 0,
    inputs := none, outputs := some ["x", "y"] }

/-- C10 counterexample: with updateEntities unset, the orchestrator does not
always run the update step and return a non-null updates object — on a
transaction whose clustering leaves two unclustered addresses the whole call
rejects, so no result and no updates object is produced. -/
theorem identifyEntities_throws_cex :
    identifyEntitiesFromTransactions unknownStore [cexT10]
      { updateEntities := none, confidenceThreshold := none } =
      .error "Entity identification failed: Combined clustering failed: Behavioral clustering failed: areFeaturesSimilar is not defined" :=
  rfl

/-- C10 (amended): whenever identifyEntitiesFromTransactions returns a
result, the updates field dichotomy holds: with updateEntities equal to
false no update is attempted and updates is null while clusters and
attributions are still returned; with any other option value the update
step runs and updates is a non-null object. -/
theorem identifyEntities_updates_dichotomy (store : EntityStore)
    (transactions : List Transaction) (options : IdentifyBatchOptions)
    (r : IdentificationResult)
    (h : identifyEntitiesFromTransactions store transactions options = .ok r) :
    (options.updateEntities = some false → r.updates = none) ∧
    (options.updateEntities ≠ some false → ∃ u, r.updates = some u) := by
  unfold identifyEntitiesFromTransactions at h
  dsimp only at h
  rcases hcc : combinedClustering transactions (extractUniqueAddresses transactions) with
    m | clusters
  · rw [hcc] at h
    simp [Bind.bind, Except.bind] at h
  · rw [hcc] at h
    simp only [Bind.bind, Except.bind] at h
    rcases hac : attributeClusters store clusters with m | ar
    · rw [hac] at h
      simp [Bind.bind, Except.bind] at h
    · rw [hac] at h
      simp only [Bind.bind, Except.bind, pure, Except.pure, Except.ok.injEq] at h
      subst h
      constructor
      · intro hu
        simp [hu]
      · intro hu
        exact ⟨updateEntitiesWithAttributions store ar
          (match options.confidenceThreshold with
            | some t => if t = 0 then 4/5 else t
            | none => 4/5), by simp only [if_pos hu]⟩

theorem identifyEntities_updates_dichotomy_witness :
    (∃ u, ∀ r : IdentificationResult,
      identifyEntitiesFromTransactions unknownStore []
        { updateEntities := none, confidenceThreshold := none } = .ok r →
      r.updates = some u) ∨
    ((identifyEntitiesFromTransactions unknownStore []
        { updateEntities := none, confidenceThreshold := none } =
          .ok { transactionCount := 0, addressCount := 0, clusterCount := 0,
                clusters := [], attributions := [],
                updates := some { updated := [], created := [], skipped := [] } }) ∧
      (identifyEntitiesFromTransactions unknownStore []
        { updateEntities := some false, confidenceThreshold := none } =
          .ok { transactionCount := 0, addressCount := 0, clusterCount := 0,
                clusters := [], attributions := [], updates := none }) ∧
      (∃ u,
        ({ transactionCount := 0, addressCount := 0, clusterCount := 0,
           clusters := [], attributions := [],
           updates := some { updated := [], created := [], skipped := [] } } :
            IdentificationResult).updates = some u) ∧
      ({ transactionCount := 0, addressCount := 0, clusterCount := 0,
         clusters := [], attributions := [],
         updates := none } : IdentificationResult).updates = none) :=
  Or.inr
    ⟨rfl, rfl,
      (identifyEntities_updates_dichotomy unknownStore []
        { updateEntities := none, confidenceThreshold := none } _ rfl).2
        (by simp),
      (identifyEntities_updates_dichotomy unknownStore []
        { updateEntities := some false, confidenceThreshold := none } _ rfl).1
        rfl⟩

/-- C9 (confirmed): calculateConfidence equals the claimed formula
min(0.95, 0.6·min(1, sampleSize/20) + 0.4·min(1, patternStrength/10)) and
never exceeds 0.95; and every pattern produced by the activity-timing
detector carries exactly that confidence, with patternStrength the number
of flagged bins (the pattern's item count) and sampleSize the number of
transactions. -/
theorem pattern_confidence_formula :
    (∀ patternStrength sampleSize : ℚ,
      calculateConfidence patternStrength sampleSize =
        min (19/20)
          ((6/10) * min 1 (sampleSize / 20) + (4/10) * min 1 (patternStrength / 10)) ∧
      calculateConfidence patternStrength sampleSize ≤ 19/20) ∧
    (∀ (address : String) (transactions : List Transaction),
      ∀ p ∈ detectActivityTimingPatterns address transactions,
        p.confidence =
          calculateConfidence ((p.items.length : ℚ)) ((transactions.length : ℚ)) ∧
        p.confidence ≤ 19/20) := by
  constructor
  · intro ps ss
    constructor
    · unfold calculateConfidence
      ring_nf
    · exact min_le_left _ _
  · intro address transactions p hp
    simp only [detectActivityTimingPatterns] at hp
    rcases List.mem_append.1 hp with hp | hp
    · split at hp
      · simp only [List.mem_singleton] at hp
        subst hp
        refine ⟨?_, min_le_left _ _⟩
        simp [List.length_map]
      · simp at hp
    · split at hp
      · simp only [List.mem_singleton] at hp
        subst hp
        exact ⟨rfl, min_le_left _ _⟩
      · simp at hp

/-- A transaction at epoch time zero (hour 0, a Thursday). -/
def wtx : Transaction :=
  { hash := "p1", timestamp := 0, sender := "s", receiver := "r", value := 0,
    inputs := none, outputs := none }

theorem pattern_confidence_formula_witness :
    ({ key := "peakHours", items := ["0"],
       description := "Activity concentrated during hours: 0",
       confidence := 7/100 } : TimingPattern) ∈
        detectActivityTimingPatterns "x" [wtx] ∧
    (7/100 : ℚ) =
      calculateConfidence ((1 : ℚ)) ((1 : ℚ)) ∧
    (7/100 : ℚ) ≤ 19/20 := by
  have hdetect : detectActivityTimingPatterns "x" [wtx] =
      [{ key := "peakHours", items := ["0"],
         description := "Activity concentrated during hours: 0",
         confidence := 7/100 },
       { key := "activeDays", items := ["Thursday"],
         description := "Activity concentrated on days: Thursday",
         confidence := 7/100 }] := by
    have hr24 : List.range 24 =
        [0, 1, 2, 3, 4, 5, 6, 7, 8, 9, 10, 11, 12, 13, 14, 15, 16, 17, 18,
         19, 20, 21, 22, 23] := rfl
    have hr7 : List.range 7 = [0, 1, 2, 3, 4, 5, 6] := rfl
    simp only [detectActivityTimingPatterns, hr24, hr7, wtx]
    norm_num [hourOfTimestamp, dayOfTimestamp, calculateConfidence, min_def,
      dayNames, String.intercalate]
    exact ⟨⟨rfl, rfl⟩, rfl⟩
  have hmem :
      ({ key := "peakHours", items := ["0"],
         description := "Activity concentrated during hours: 0",
         confidence := 7/100 } : TimingPattern) ∈
        detectActivityTimingPatterns "x" [wtx] := by
    rw [hdetect]
    simp
  refine ⟨hmem, ?_, ?_⟩
  · have h := (pattern_confidence_formula.2 "x" [wtx] _ hmem).1
    simpa using h
  · exact (pattern_confidence_formula.2 "x" [wtx] _ hmem).2

/-! Claim C3: confidence and risk-score bounds. -/

/-- The claim's standing assumption: every entity the store returns from the
by-address index has a confidence score in the unit interval. -/
def StoreConf01 (store : EntityStore) : Prop :=
  ∀ a e, store.findEntityForAddress a = .ok (some e) →
    0 ≤ e.confidenceScore ∧ e.confidenceScore ≤ 1

theorem groupHits_baseConfidence (Q : ℚ → Prop) (attrs : List AttributionHit)
    (hq : ∀ hit ∈ attrs, Q hit.confidenceBase) :
    ∀ p ∈ groupHits attrs, Q p.2.baseConfidence := by
  unfold groupHits
  have main : ∀ (l : List AttributionHit) (acc : List (String × EntityGroup)),
      (∀ hit ∈ l, Q hit.confidenceBase) →
      (∀ p ∈ acc, Q p.2.baseConfidence) →
      ∀ p ∈ l.foldl groupStep acc, Q p.2.baseConfidence := by
    intro l
    induction l with
    | nil => exact fun acc _ hacc p hp => hacc p hp
    | cons a l ih =>
      intro acc hl hacc p hp
      refine ih (groupStep acc a)
        (fun hit h => hl hit (List.mem_cons_of_mem _ h)) ?_ p hp
      intro q hq2
      unfold groupStep at hq2
      split at hq2
      · rw [List.mem_map] at hq2
        obtain ⟨r, hr, hrq⟩ := hq2
        by_cases hre : r.1 = a.entityId
        · rw [if_pos hre] at hrq
          have := hacc r hr
          rw [← hrq]
          exact this
        · rw [if_neg hre] at hrq
          exact hrq ▸ hacc r hr
      · rcases List.mem_append.1 hq2 with hq2 | hq2
        · exact hacc q hq2
        · simp at hq2
          rw [hq2]
          exact hl a (List.mem_cons_self _ _)
  exact main attrs [] hq (by simp)

theorem bestGroup_prop (Q : EntityGroup → Prop)
    (gs : List (String × EntityGroup)) (hq : ∀ p ∈ gs, Q p.2) :
    ∀ g, bestGroup gs = some g → Q g := by
  unfold bestGroup
  have main : ∀ (l : List (String × EntityGroup)) (acc : Option EntityGroup × Nat),
      (∀ p ∈ l, Q p.2) →
      (∀ g, acc.1 = some g → Q g) →
      ∀ g, (l.foldl bestStep acc).1 = some g → Q g := by
    intro l
    induction l with
    | nil => exact fun acc _ hacc => hacc
    | cons a l ih =>
      intro acc hl hacc g hg
      refine ih (bestStep acc a)
        (fun p hp => hl p (List.mem_cons_of_mem _ hp)) ?_ g hg
      intro g' hg'
      unfold bestStep at hg'
      split at hg'
      · simp at hg'
        rw [← hg']
        exact hl a (List.mem_cons_self _ _)
      · exact hacc g' hg'
  exact main gs (none, 0) hq (by simp)

theorem consensus_confidence_bounds (attrs : List AttributionHit) (total : ℚ)
    (htotal : 0 ≤ total) (hq : ∀ hit ∈ attrs, 0 ≤ hit.confidenceBase)
    (ca : ConsensusAttribution)
    (hca : calculateConsensusAttribution attrs total = some ca) :
    0 ≤ ca.confidence ∧ ca.confidence ≤ 99/100 := by
  unfold calculateConsensusAttribution at hca
  dsimp only at hca
  rcases hbg : bestGroup (groupHits attrs) with _ | g
  · rw [hbg] at hca
    simp at hca
  · rw [hbg] at hca
    simp only [Option.some.injEq] at hca
    have hgb : 0 ≤ g.baseConfidence :=
      bestGroup_prop (fun g => 0 ≤ g.baseConfidence) _
        (groupHits_baseConfidence (fun q => 0 ≤ q) attrs hq) g hbg
    have hconf : ca.confidence = min (99/100)
        ((g.count : ℚ) / total * (3/10) + g.baseConfidence * (4/10) +
          (g.count : ℚ) / (attrs.length : ℚ) * (3/10)) := by
      rw [← hca]
    rw [hconf]
    constructor
    · apply le_min
      · norm_num
      · have h1 : 0 ≤ (g.count : ℚ) / total * (3/10) := by
          apply mul_nonneg
          · exact div_nonneg (Nat.cast_nonneg _) htotal
          · norm_num
        have h2 : 0 ≤ g.baseConfidence * (4/10) := by
          apply mul_nonneg hgb
          norm_num
        have h3 : 0 ≤ (g.count : ℚ) / (attrs.length : ℚ) * (3/10) := by
          apply mul_nonneg
          · exact div_nonneg (Nat.cast_nonneg _) (Nat.cast_nonneg _)
          · norm_num
        linarith
    · exact min_le_left _ _

theorem interactionScore_bounds (address : String) (ea : List String)
    (txs : List Transaction) :
    0 ≤ calculateInteractionScore address ea txs ∧
    calculateInteractionScore address ea txs ≤ 19/20 := by
  unfold calculateInteractionScore
  constructor
  · apply le_min
    · norm_num
    · apply mul_nonneg
      · split
        · exact div_nonneg (Nat.cast_nonneg _) (Nat.cast_nonneg _)
        · exact le_refl 0
      · norm_num
  · exact min_le_left _ _

theorem behaviorFold_bound (address : String) (txs : List Transaction) :
    ∀ (l : List Entity) (acc : Option Entity × ℚ),
      0 ≤ acc.2 → acc.2 ≤ 1 →
      0 ≤ (l.foldl (behaviorStep address txs) acc).2 ∧
      (l.foldl (behaviorStep address txs) acc).2 ≤ 1 := by
  intro l
  induction l with
  | nil => exact fun acc h0 h1 => ⟨h0, h1⟩
  | cons e l ih =>
    intro acc h0 h1
    apply ih
    · simp only [behaviorStep]
      split
      · exact h0
      · split
        · simp only
          have hb := (interactionScore_bounds address e.addresses txs).1
          nlinarith
        · exact h0
    · simp only [behaviorStep]
      split
      · exact h1
      · split
        · simp only
          have hb := (interactionScore_bounds address e.addresses txs).2
          nlinarith
        · exact h1

theorem attributeByBehavior_confidence_bounds (store : EntityStore)
    (address : String) (txs : List Transaction) (b : BehavioralMatch)
    (h : attributeByBehavior store address txs = .ok (some b)) :
    0 ≤ b.confidence ∧ b.confidence ≤ 1 := by
  unfold attributeByBehavior at h
  rcases hge : store.getEntities with m | entities
  · rw [hge] at h
    simp [Bind.bind, Except.bind] at h
  · rw [hge] at h
    simp only [Bind.bind, Except.bind] at h
    rcases hbest : (entities.foldl (behaviorStep address txs) (none, 0)).1 with
      _ | e
    · rw [hbest] at h
      simp [pure, Except.pure] at h
    · rw [hbest] at h
      simp only [pure, Except.pure, Except.ok.injEq, Option.some.injEq] at h
      have hb := behaviorFold_bound address txs entities (none, 0)
        (by norm_num) (by norm_num)
      rw [← h]
      exact hb

theorem hitFold_bound (store : EntityStore) (hs : StoreConf01 store) :
    ∀ (addrs : List String) (acc : List AttributionHit),
      (∀ hit ∈ acc, 0 ≤ hit.confidenceBase ∧ hit.confidenceBase ≤ 1) →
      ∀ hits,
        addrs.foldlM
          (fun (hits : List AttributionHit) address => do
            let entity ← store.findEntityForAddress address
            match entity with
            | some e => pure (hits ++ [mkHit e address])
            | none => pure hits)
          acc = .ok hits →
        ∀ hit ∈ hits, 0 ≤ hit.confidenceBase ∧ hit.confidenceBase ≤ 1 := by
  intro addrs
  induction addrs with
  | nil =>
    intro acc hacc hits hfold
    simp only [List.foldlM_nil, pure, Except.pure, Except.ok.injEq] at hfold
    rw [← hfold]
    exact hacc
  | cons a l ih =>
    intro acc hacc hits hfold
    rw [List.foldlM_cons] at hfold
    rcases hfind : store.findEntityForAddress a with m | oe
    · rw [hfind] at hfold
      simp [Bind.bind, Except.bind] at hfold
    · rw [hfind] at hfold
      rcases oe with _ | e
      · simp only [Bind.bind, Except.bind, pure, Except.pure] at hfold
        exact ih acc hacc hits hfold
      · simp only [Bind.bind, Except.bind, pure, Except.pure] at hfold
        refine ih _ ?_ hits hfold
        intro hit hh
        rcases List.mem_append.1 hh with hh | hh
        · exact hacc hit hh
        · simp at hh
          rw [hh]
          have := hs a e hfind
          simpa [mkHit] using this

theorem attributeAddress_tail_bound (store : EntityStore) (hs : StoreConf01 store)
    (address : String) (txs : List Transaction) (rel : List String)
    (attr : AddressAttribution)
    (h : (do
        let attributions ← rel.foldlM
          (fun (hits : List AttributionHit) relatedAddress => do
            let entity ← store.findEntityForAddress relatedAddress
            match entity with
            | some e => pure (hits ++ [mkHit e relatedAddress])
            | none => pure hits)
          []
        if attributions.length > 0 then
          match calculateConsensusAttribution attributions (rel.length : ℚ) with
          | some attribution =>
            pure
              { entityId := some attribution.entityId,
                entityName := attribution.entityName,
                entityType := attribution.entityType,
                confidence := attribution.confidence,
                attributionMethod := "cluster_analysis",
                relatedAddresses := rel,
                matchedAddresses := attribution.matchedAddresses }
          | none => pure unknownAddressAttribution
        else do
          let behavioralAttribution ← attributeByBehavior store address txs
          match behavioralAttribution with
          | some b =>
            if b.confidence > 1/2 then
              pure
                { entityId := some b.entityId, entityName := b.entityName,
                  entityType := b.entityType, confidence := b.confidence,
                  attributionMethod := "behavioral_analysis",
                  relatedAddresses := [], matchedAddresses := [] }
            else pure unknownAddressAttribution
          | none => pure unknownAddressAttribution) = Except.ok attr) :
    0 ≤ attr.confidence ∧ attr.confidence ≤ 1 := by
  rcases hatt : rel.foldlM
      (fun (hits : List AttributionHit) relatedAddress => do
        let entity ← store.findEntityForAddress relatedAddress
        match entity with
        | some e => pure (hits ++ [mkHit e relatedAddress])
        | none => pure hits)
      [] with m | hits
  · rw [hatt] at h
    simp [Bind.bind, Except.bind] at h
  · rw [hatt] at h
    simp only [Bind.bind, Except.bind] at h
    have hhits := hitFold_bound store hs rel [] (by simp) hits hatt
    by_cases hl : hits.length > 0
    · rw [if_pos hl] at h
      rcases hca : calculateConsensusAttribution hits (rel.length : ℚ) with _ | ca
      · rw [hca] at h
        simp only [pure, Except.pure, Except.ok.injEq] at h
        rw [← h]
        norm_num [unknownAddressAttribution]
      · rw [hca] at h
        simp only [pure, Except.pure, Except.ok.injEq] at h
        rw [← h]
        dsimp only
        have := consensus_confidence_bounds hits (rel.length : ℚ)
          (Nat.cast_nonneg _) (fun hit hh => (hhits hit hh).1) ca hca
        exact ⟨this.1, by linarith [this.2]⟩
    · rw [if_neg hl] at h
      rcases hbeh : attributeByBehavior store address txs with m | ob
      · rw [hbeh] at h
        simp [Bind.bind, Except.bind] at h
      · rw [hbeh] at h
        rcases ob with _ | b
        · simp only [Bind.bind, Except.bind, pure, Except.pure, Except.ok.injEq] at h
          rw [← h]
          norm_num [unknownAddressAttribution]
        · simp only [Bind.bind, Except.bind] at h
          by_cases hb : b.confidence > 1/2
          · rw [if_pos hb] at h
            simp only [pure, Except.pure, Except.ok.injEq] at h
            rw [← h]
            dsimp only
            exact attributeByBehavior_confidence_bounds store address txs b hbeh
          · rw [if_neg hb] at h
            simp only [pure, Except.pure, Except.ok.injEq] at h
            rw [← h]
            norm_num [unknownAddressAttribution]

theorem attributeAddress_confidence_bounds (store : EntityStore)
    (hs : StoreConf01 store) (address : String) (txs : List Transaction)
    (attr : AddressAttribution)
    (h : attributeAddress store address txs = .ok attr) :
    0 ≤ attr.confidence ∧ attr.confidence ≤ 1 := by
  unfold attributeAddress at h
  dsimp only at h
  split at h
  · rename_i v heq
    injection h with hv
    subst hv
    rcases hfind : store.findEntityForAddress address with m | oe
    · rw [hfind] at heq
      simp [Bind.bind, Except.bind] at heq
    · rw [hfind] at heq
      rcases oe with _ | e
      · simp only [Bind.bind, Except.bind] at heq
        by_cases hlen : txs.length > 0
        · rw [if_pos hlen] at heq
          rcases hcc : combinedClustering txs
              (txs.foldl
                (fun s tx => setUnion s (getInputAddresses tx ++ getOutputAddresses tx))
                []) with m | cls
          · rw [hcc] at heq
            simp [Bind.bind, Except.bind] at heq
          · rw [hcc] at heq
            simp only [Bind.bind, Except.bind, pure, Except.pure] at heq
            exact attributeAddress_tail_bound store hs address txs _ v heq
        · rw [if_neg hlen] at heq
          simp only [Bind.bind, Except.bind, pure, Except.pure] at heq
          exact attributeAddress_tail_bound store hs address txs [] v heq
      · simp only [Bind.bind, Except.bind, pure, Except.pure, Except.ok.injEq] at heq
        rw [← heq]
        dsimp only
        exact hs address e hfind
  · simp at h

theorem clusterFold_bound (store : EntityStore) (hs : StoreConf01 store) :
    ∀ (cls : List (String × List String)) (acc : List (String × AttributionResult)),
      (∀ p ∈ acc, 0 ≤ p.2.confidence ∧ p.2.confidence ≤ 99/100) →
      ∀ v,
        cls.foldlM
          (fun (acc : List (String × AttributionResult))
               (cluster : String × List String) => do
            let attributions ← cluster.2.foldlM
              (fun (hits : List AttributionHit) address => do
                let entity ← store.findEntityForAddress address
                match entity with
                | some e => pure (hits ++ [mkHit e address])
                | none => pure hits)
              []
            if attributions.length > 0 then
              match calculateConsensusAttribution attributions (cluster.2.length : ℚ) with
              | some attribution =>
                pure (acc ++ [(cluster.1,
                  ({ entityId := some attribution.entityId,
                     entityName := attribution.entityName,
                     entityType := attribution.entityType,
                     confidence := attribution.confidence,
                     addresses := cluster.2,
                     matchedAddresses := attribution.matchedAddresses } :
                    AttributionResult))])
              | none => pure acc
            else
              pure (acc ++ [(cluster.1,
                ({ entityId := none, entityName := "Unknown",
                   entityType := "Unknown", confidence := 0,
                   addresses := cluster.2, matchedAddresses := [] } :
                  AttributionResult))]))
          acc = .ok v →
        ∀ p ∈ v, 0 ≤ p.2.confidence ∧ p.2.confidence ≤ 99/100 := by
  intro cls
  induction cls with
  | nil =>
    intro acc hacc v hfold
    simp only [List.foldlM_nil, pure, Except.pure, Except.ok.injEq] at hfold
    rw [← hfold]
    exact hacc
  | cons c l ih =>
    intro acc hacc v hfold
    rw [List.foldlM_cons] at hfold
    rcases hatt : c.2.foldlM
        (fun (hits : List AttributionHit) address => do
          let entity ← store.findEntityForAddress address
          match entity with
          | some e => pure (hits ++ [mkHit e address])
          | none => pure hits)
        [] with m | hits
    · rw [hatt] at hfold
      simp [Bind.bind, Except.bind] at hfold
    · rw [hatt] at hfold
      simp only [Bind.bind, Except.bind] at hfold
      have hhits := hitFold_bound store hs c.2 [] (by simp) hits hatt
      by_cases hl : hits.length > 0
      · rw [if_pos hl] at hfold
        rcases hca : calculateConsensusAttribution hits (c.2.length : ℚ) with _ | ca
        · rw [hca] at hfold
          simp only [pure, Except.pure] at hfold
          exact ih acc hacc v hfold
        · rw [hca] at hfold
          simp only [pure, Except.pure] at hfold
          refine ih _ ?_ v hfold
          intro p hp
          rcases List.mem_append.1 hp with hp | hp
          · exact hacc p hp
          · simp at hp
            rw [hp]
            dsimp only
            exact consensus_confidence_bounds hits (c.2.length : ℚ)
              (Nat.cast_nonneg _) (fun hit hh => (hhits hit hh).1) ca hca
      · rw [if_neg hl] at hfold
        simp only [pure, Except.pure] at hfold
        refine ih _ ?_ v hfold
        intro p hp
        rcases List.mem_append.1 hp with hp | hp
        · exact hacc p hp
        · simp at hp
          rw [hp]
          dsimp only
          norm_num

theorem attributeClusters_confidence_bounds (store : EntityStore)
    (hs : StoreConf01 store) (clusters : List (String × List String))
    (res : List (String × AttributionResult))
    (h : attributeClusters store clusters = .ok res) :
    ∀ p ∈ res, 0 ≤ p.2.confidence ∧ p.2.confidence ≤ 99/100 := by
  unfold attributeClusters at h
  dsimp only at h
  split at h
  · rename_i v heq
    injection h with hv
    subst hv
    rcases hge : store.getEntities with m | es
    · rw [hge] at heq
      simp [Bind.bind, Except.bind] at heq
    · rw [hge] at heq
      simp only [Bind.bind, Except.bind] at heq
      exact clusterFold_bound store hs clusters [] (by simp) v heq
  · simp at h

theorem identifyAddressEntity_confidence_bounds (store : EntityStore)
    (hs : StoreConf01 store) (address : String) (options : IdentifyOptions)
    (info : EntityInfo)
    (h : identifyAddressEntity store address options = .ok info) :
    0 ≤ info.confidence ∧ info.confidence ≤ 1 := by
  unfold identifyAddressEntity at h
  dsimp only at h
  split at h
  · rename_i v heq
    injection h with hv
    subst hv
    rcases hfind : store.findEntityForAddress address with m | oe
    · rw [hfind] at heq
      simp [Bind.bind, Except.bind] at heq
    · rw [hfind] at heq
      rcases oe with _ | e
      · simp only [Bind.bind, Except.bind] at heq
        by_cases hopt : options.performAnalysis ≠ some false
        · rw [if_pos hopt] at heq
          rcases hattr : attributeAddress store address [] with m | attr
          · rw [hattr] at heq
            simp [Bind.bind, Except.bind] at heq
          · rw [hattr] at heq
            simp only [Bind.bind, Except.bind, pure, Except.pure,
              Except.ok.injEq] at heq
            rw [← heq]
            dsimp only
            exact attributeAddress_confidence_bounds store hs address [] attr hattr
        · rw [if_neg hopt] at heq
          simp only [pure, Except.pure, Except.ok.injEq] at heq
          rw [← heq]
          norm_num
      · simp only [Bind.bind, Except.bind, pure, Except.pure,
          Except.ok.injEq] at heq
        rw [← heq]
        dsimp only
        exact hs address e hfind
  · simp at h

theorem mem_ite_singleton {α : Type} {c : Prop} [Decidable c] {x f : α}
    (h : f ∈ if c then [x] else []) : f = x := by
  split at h
  · simpa using h
  · simp at h

theorem detect_scores_bounds (address : String) (txs : List Transaction)
    (info : EntityInfo) (now : ℚ) :
    ∀ f ∈ detectRiskFactors address txs info now, 0 ≤ f.score := by
  intro f hf
  unfold detectRiskFactors at hf
  simp only [List.mem_append] at hf
  rcases hf with
    ((((((((hf | hf) | hf) | hf) | hf) | hf) | hf) | hf) | hf) | hf <;>
    · rw [mem_ite_singleton hf]
      norm_num

theorem ENTITY_TYPE_RISK_nonneg : ∀ p ∈ ENTITY_TYPE_RISK, 0 ≤ p.2 := by
  intro p hp
  fin_cases hp <;> norm_num

theorem maxFold_nonneg : ∀ (l : List RiskFactor) (m : ℚ), 0 ≤ m →
    0 ≤ l.foldl (fun m f => if f.score > m then f.score else m) m := by
  intro l
  induction l with
  | nil => exact fun m hm => hm
  | cons f l ih =>
    intro m hm
    simp only [List.foldl_cons]
    apply ih
    split
    · linarith
    · exact hm

theorem riskScore_combine_bounds (s0 nfs : ℚ) (h0 : 0 ≤ s0) (h1 : s0 ≤ 1)
    (hnfs : 0 ≤ nfs) :
    0 ≤ min (19/20 : ℚ) (s0 + (1 - s0) * nfs) ∧
    min (19/20 : ℚ) (s0 + (1 - s0) * nfs) ≤ 19/20 := by
  refine ⟨le_min (by norm_num) ?_, min_le_left _ _⟩
  have h2 : 0 ≤ (1 - s0) * nfs := mul_nonneg (by linarith) hnfs
  linarith

theorem calculateRiskScore_bounds (riskFactors : List RiskFactor)
    (info : EntityInfo) (hconf : 0 ≤ info.confidence)
    (hscores : ∀ f ∈ riskFactors, 0 ≤ f.score) :
    0 ≤ (calculateRiskScore riskFactors info).score ∧
    (calculateRiskScore riskFactors info).score ≤ 19/20 := by
  unfold calculateRiskScore
  dsimp only
  refine riskScore_combine_bounds _ _
    (le_min (by norm_num) (mul_nonneg ?_ hconf))
    (le_trans (min_le_left _ _) (by norm_num)) ?_
  · split
    · norm_num
    · split
      · rename_i p hfind
        exact ENTITY_TYPE_RISK_nonneg p (List.mem_of_find?_eq_some hfind)
      · norm_num
  · split
    · have hsum : 0 ≤ (riskFactors.map (fun f => f.score)).sum := by
        apply List.sum_nonneg
        intro x hx
        rw [List.mem_map] at hx
        obtain ⟨f, hf, rfl⟩ := hx
        exact hscores f hf
      have hmax := maxFold_nonneg riskFactors 0 le_rfl
      have hdiv : 0 ≤ (riskFactors.map (fun f => f.score)).sum /
          (riskFactors.length : ℚ) := div_nonneg hsum (Nat.cast_nonneg _)
      have hx1 : 0 ≤ (riskFactors.map (fun f => f.score)).sum /
          (riskFactors.length : ℚ) * (7/10) := mul_nonneg hdiv (by norm_num)
      have hx2 : 0 ≤ riskFactors.foldl
          (fun m f => if f.score > m then f.score else m) 0 * (3/10) :=
        mul_nonneg hmax (by norm_num)
      linarith
    · exact le_refl 0

theorem calculateAddressRisk_bounds (store : EntityStore)
    (hs : StoreConf01 store) (address : String) (now : ℚ) :
    0 ≤ (calculateAddressRisk store address now).riskScore ∧
    (calculateAddressRisk store address now).riskScore ≤ 19/20 := by
  unfold calculateAddressRisk
  rcases hid : identifyAddressEntity store address { performAnalysis := some true }
      with m | info <;> dsimp only
  · exact calculateRiskScore_bounds _ _ (by norm_num [unknownEntityInfo])
      (detect_scores_bounds address [] _ now)
  · exact calculateRiskScore_bounds _ _
      (identifyAddressEntity_confidence_bounds store hs address _ info hid).1
      (detect_scores_bounds address [] _ now)

/-- A store holding a single fully attested entity (confidenceScore 1),
indexed by its one address. -/
def fullConfEntity : Entity :=
  { id := "7", name := "ColdWallet", type := "Wallet",
    description := "Fully attested wallet", addresses := ["0xFULL"],
    confidenceScore := 1 }

def fullConfStore : EntityStore :=
  { getEntities := .ok [fullConfEntity],
    findEntityForAddress := fun a =>
      .ok (if fullConfEntity.addresses.contains a then some fullConfEntity
           else none),
    getEntityById := fun i =>
      if i = "7" then .ok fullConfEntity else .error "Entity not found",
    createEntity := fun ne =>
      .ok { id := "9", name := ne.name, type := ne.type,
            description := ne.description, addresses := ne.addresses,
            confidenceScore := ne.confidenceScore },
    updateEntity := fun _ addrs => .ok { fullConfEntity with addresses := addrs } }

/-- C3 (counterexample to the claimed 0.99 cap on attributeAddress): in a
store whose entities all have confidence scores in the unit interval, the
direct-match path of attributeAddress passes the stored score through
unclamped, so a full-confidence entity yields confidence 1 > 0.99. -/
theorem attributeAddress_direct_match_unclamped_cex :
    StoreConf01 fullConfStore ∧
    ∃ attr, attributeAddress fullConfStore "0xFULL" [] = .ok attr ∧
      attr.confidence = 1 ∧ ¬ attr.confidence ≤ 99/100 := by
  constructor
  · intro a e he
    simp only [fullConfStore] at he
    split at he
    · simp only [Except.ok.injEq, Option.some.injEq] at he
      rw [← he]
      norm_num [fullConfEntity]
    · simp at he
  · refine ⟨{ entityId := some "7", entityName := "ColdWallet",
              entityType := "Wallet", confidence := 1,
              attributionMethod := "direct_match", relatedAddresses := [],
              matchedAddresses := [] }, rfl, rfl, by norm_num⟩

/-- C3 (amended): assuming every entity the store's by-address lookup
returns has a confidence score in [0, 1], every confidence produced by
attributeClusters lies in [0, 0.99]; every confidence produced by
attributeAddress lies in [0, 1] (the direct-match path passes the stored
score through unclamped, so 0.99 is not a bound there); and every riskScore
produced by calculateAddressRisk lies in [0, 0.95]. -/
theorem confidence_and_risk_bounds (store : EntityStore)
    (hs : StoreConf01 store) :
    (∀ clusters res, attributeClusters store clusters = .ok res →
      ∀ p ∈ res, 0 ≤ p.2.confidence ∧ p.2.confidence ≤ 99/100) ∧
    (∀ address txs attr, attributeAddress store address txs = .ok attr →
      0 ≤ attr.confidence ∧ attr.confidence ≤ 1) ∧
    (∀ address now, 0 ≤ (calculateAddressRisk store address now).riskScore ∧
      (calculateAddressRisk store address now).riskScore ≤ 19/20) := by
  refine ⟨?_, ?_, ?_⟩
  · exact fun clusters res h =>
      attributeClusters_confidence_bounds store hs clusters res h
  · exact fun address txs attr h =>
      attributeAddress_confidence_bounds store hs address txs attr h
  · exact fun address now => calculateAddressRisk_bounds store hs address now

/-- Witness for confidence_and_risk_bounds at the empty store and a
concrete address, with each hypothesis discharged concretely. -/
theorem confidence_and_risk_bounds_witness :
    (∃ attr, attributeAddress unknownStore "a" [] = Except.ok attr ∧
      0 ≤ attr.confidence ∧ attr.confidence ≤ 1) ∧
    0 ≤ (calculateAddressRisk unknownStore "a" 0).riskScore ∧
    (calculateAddressRisk unknownStore "a" 0).riskScore ≤ 19/20 := by
  have hs : StoreConf01 unknownStore := by
    intro a e he
    simp [unknownStore] at he
  have main := confidence_and_risk_bounds unknownStore hs
  refine ⟨⟨unknownAddressAttribution, rfl, ?_⟩, main.2.2 "a" 0⟩
  exact main.2.1 "a" [] unknownAddressAttribution rfl

end BlockchainIntel
